import Mathlib

/-!
# MPFF decoder (`checkpoint2/workingdec.c`, `checkpoint2/jldec.c`)

A shallow embedding of `mpff_decode_frame`, the decoder of the MPFF raster
container, and theorems about its header validation, its size fix-ups, its
row stride and its row copy loop.

Conventions of the embedding.

* The packet `avpkt` is the list of its bytes; `avpkt->size` is the length of
  the list.  A memory cell is a natural number and a `uint8_t` read reduces it
  modulo `2^8`.
* `unsigned int` values are naturals below `2^32`, `int` values are integers
  reduced by `toInt32`; every conversion the C code performs implicitly is
  written out (`toU32`, `toInt32`, `wrap32`).
* The read cursor `buf` is a byte offset from `avpkt->data`; the write cursor
  `ptr` is a byte offset from `p->data[0]`.
* The host function `ff_get_buffer` is a parameter of the decoder.
* A run records, besides the returned value and the final state of the objects
  the decoder is handed, the diagnostics it logged, the input ranges it read,
  the buffers it requested and the destination ranges it wrote.
* A read at or after `avpkt->size`, a write outside the acquired plane and a
  read of an uninitialised local are not given a value: the run stops there
  with `Outcome.undefined`.
-/

namespace Mpff

/-! ## Machine integers -/

/-- Conversion of an `int` (or any integer) to `unsigned int`. -/
def toU32 (x : Int) : Nat := (x % 4294967296).toNat

/-- Conversion of an `unsigned int` to `int` (two's complement). -/
def toInt32 (v : Nat) : Int :=
  if v % 4294967296 < 2147483648 then ((v % 4294967296 : Nat) : Int)
  else ((v % 4294967296 : Nat) : Int) - 4294967296

/-- An `int` result reduced to 32 bits (two's complement wraparound). -/
def wrap32 (x : Int) : Int := toInt32 (toU32 x)

/-! ## Host types (`avcodec.h`) -/

/-- The value of `AVERROR_INVALIDDATA`, `-MKTAG('I','N','D','A')`. -/
def AVERROR_INVALIDDATA : Int := -1094995529

/-- The pixel formats the two source files name. -/
inductive AVPixelFormat where
  | AV_PIX_FMT_NONE
  | AV_PIX_FMT_BGR24
  | AV_PIX_FMT_RGB8
  deriving DecidableEq

/-- The picture types the decoder can leave in a frame. -/
inductive AVPictureType where
  | AV_PICTURE_TYPE_NONE
  | AV_PICTURE_TYPE_I
  deriving DecidableEq

/-- The fields of `AVCodecContext` the decoder touches. -/
structure AVCodecContext where
  width : Int
  height : Int
  pix_fmt : AVPixelFormat
  deriving DecidableEq

/-- The fields of `AVFrame` the decoder touches: `data` is the plane
`p->data[0]` points to, `linesize` is `p->linesize[0]`. -/
structure AVFrame where
  data : List Nat
  linesize : Int
  pict_type : AVPictureType
  key_frame : Int
  deriving DecidableEq

/-- The objects handed to `mpff_decode_frame` by pointer. -/
structure Env where
  avctx : AVCodecContext
  p : AVFrame
  got_frame : Int
  deriving DecidableEq

/-- The host's `ff_get_buffer(avctx, p, 0)`: its return value and the frame
it leaves behind. -/
abbrev Host := AVCodecContext → AVFrame → Int × AVFrame

/-- The `av_log` calls of `workingdec.c` and `jldec.c`, with their arguments. -/
inductive LogMsg where
  /-- Text `"buf size too small (%d)\n"`. -/
  | buf_size_too_small (buf_size : Int)
  /-- Text `"bad magic number\n"`. -/
  | bad_magic_number
  /-- Text `"not enough data (%d < %u), trying to decode anyway\n"`. -/
  | not_enough_data (buf_size : Int) (fsize : Nat)
  /-- Text `"invalid header size %u\n"`. -/
  | invalid_header_size (hsize : Nat)
  /-- Text `"Declared file size is less than header size (%u < %u)\n"`. -/
  | declared_file_size_less (fsize hsize : Nat)
  /-- Text `"unsupported pixel format\n"`. -/
  | unsupported_pixel_format
  deriving DecidableEq

/-- The ways a run leaves defined behaviour. -/
inductive Undefined where
  /-- A read of `cnt` input bytes at offset `off` that ends after `avpkt->size`. -/
  | read_past_input (off cnt : Nat)
  /-- A write of `cnt` bytes at offset `off` from `p->data[0]` that is not
  inside the plane. -/
  | write_outside_frame (off : Int) (cnt : Nat)
  /-- A read of a local variable that was never assigned. -/
  | uninitialised_read
  deriving DecidableEq

/-- How a run ends. -/
inductive Outcome where
  | returned (ret : Int)
  | undefined (u : Undefined)
  deriving DecidableEq

/-- A run of the decoder. -/
structure Run where
  /-- The value returned, or the undefined step. -/
  out : Outcome
  /-- The objects handed to the decoder, as the run leaves them. -/
  env : Env
  /-- The diagnostics, in the order they were logged. -/
  log : List LogMsg
  /-- The input ranges `(offset, count)` read inside the input, in order; a
  read that leaves the input is the undefined step of `out` instead. -/
  reads : List (Nat × Nat)
  /-- The contexts `ff_get_buffer` was called with, in order. -/
  requests : List AVCodecContext
  /-- The destination ranges `(offset, count)` written, in order. -/
  writes : List (Int × Nat)
  deriving DecidableEq

/-! ## Byte readers (`bytestream.h`) -/

/-- The byte `bytestream_get_byte` returns with the cursor at `pos`. -/
def bytestream_get_byte (pkt : List Nat) (pos : Nat) : Nat :=
  pkt.getD pos 0 % 256

/-- The value `bytestream_get_le16` returns with the cursor at `pos`. -/
def bytestream_get_le16 (pkt : List Nat) (pos : Nat) : Nat :=
  bytestream_get_byte pkt pos + 256 * bytestream_get_byte pkt (pos + 1)

/-- The value `bytestream_get_le32` returns with the cursor at `pos`. -/
def bytestream_get_le32 (pkt : List Nat) (pos : Nat) : Nat :=
  bytestream_get_byte pkt pos + 256 * bytestream_get_byte pkt (pos + 1)
    + 65536 * bytestream_get_byte pkt (pos + 2)
    + 16777216 * bytestream_get_byte pkt (pos + 3)

/-! ## The pieces of `mpff_decode_frame` (`workingdec.c`) -/

/-- Lines 69-75: `if (buf_size < fsize) fsize = buf_size;`, the comparison
being made in `unsigned int`. -/
def clamp_fsize (buf_size : Int) (fsize : Nat) : Nat :=
  if toU32 buf_size < fsize then toU32 buf_size else fsize

/-- Lines 89-90: `if (fsize == 12 || fsize == ihsize + 12) fsize = buf_size - 2;`,
the sum being made in `unsigned int`. -/
def fixup_fsize (buf_size : Int) (ihsize fsize : Nat) : Nat :=
  if fsize = 12 ∨ fsize = (ihsize + 12) % 4294967296 then toU32 (buf_size - 2)
  else fsize

/-- Line 135: `((avctx->width * depth + 31) / 8) & ~3`, computed in
`unsigned int` because `depth` is one.  The value is below `2^29`, so storing
it in the `int n` and passing `n` to `memcpy` as a `size_t` keep it. -/
def row_stride (width : Int) (depth : Nat) : Nat :=
  Nat.land (((toU32 width * depth) % 4294967296 + 31) % 4294967296 / 8) 4294967292

/-- Line 132: `dsize = buf_size - hsize`, the difference being made in
`unsigned int` and stored in the `int dsize`.  The local is never read. -/
def dsize (buf_size : Int) (hsize : Nat) : Int :=
  toInt32 (toU32 (buf_size - (hsize : Int)))

/-- The effect of `memcpy(p->data[0] + off, src, src.length)` on the plane. -/
def memcpy (dst : List Nat) (off : Nat) (src : List Nat) : List Nat :=
  dst.take off ++ src ++ dst.drop (off + src.length)

/-- What the row loop leaves behind. -/
structure RowLoop where
  /-- The undefined step the loop stopped at, if any. -/
  ub : Option Undefined
  /-- The plane after the copies made. -/
  data : List Nat
  /-- The input ranges read, in order. -/
  reads : List (Nat × Nat)
  /-- The destination ranges written, in order. -/
  writes : List (Int × Nat)
  deriving DecidableEq

/-- Lines 151-156: `rows` iterations of
`memcpy(ptr, buf, n); buf += n; ptr += linesize;`, starting with the read
cursor at offset `buf` of the input and the write cursor at offset `ptr` of
the plane `data`. -/
def row_loop (pkt : List Nat) (n : Nat) (linesize : Int) :
    Nat → Nat → Int → List Nat → RowLoop
  | 0, _, _, data => { ub := none, data := data, reads := [], writes := [] }
  | rows + 1, buf, ptr, data =>
    if pkt.length < buf + n then
      { ub := some (Undefined.read_past_input buf n), data := data,
        reads := [], writes := [] }
    else if ptr < 0 ∨ (data.length : Int) < ptr + n then
      { ub := some (Undefined.write_outside_frame ptr n), data := data,
        reads := [], writes := [] }
    else
      let r := row_loop pkt n linesize rows (buf + n) (ptr + linesize)
        (memcpy data ptr.toNat ((pkt.drop buf).take n))
      { ub := r.ub, data := r.data, reads := (buf, n) :: r.reads,
        writes := (ptr, n) :: r.writes }

/-- The reads of the header fields up to and including `hsize`. -/
def reads_to_hsize : List (Nat × Nat) :=
  [(0, 1), (1, 1), (2, 1), (3, 1), (4, 4), (8, 4)]

/-- The run that ends at a `return` before `ff_get_buffer` is called. -/
def Run.reject (env : Env) (ret : Int) (log : List LogMsg)
    (reads : List (Nat × Nat)) : Run :=
  { out := Outcome.returned ret, env := env, log := log, reads := reads,
    requests := [], writes := [] }

/-- The run that stops at an undefined header read. -/
def Run.stuck (env : Env) (u : Undefined) (log : List LogMsg)
    (reads : List (Nat × Nat)) : Run :=
  { out := Outcome.undefined u, env := env, log := log, reads := reads,
    requests := [], writes := [] }

/-- The run returned `AVERROR_INVALIDDATA` and the last diagnostic it logged
is `m`. -/
def Run.rejected_with (r : Run) (m : LogMsg) : Prop :=
  r.out = Outcome.returned AVERROR_INVALIDDATA ∧ r.log.getLast? = some m

instance (r : Run) (m : LogMsg) : Decidable (r.rejected_with m) := by
  unfold Run.rejected_with
  infer_instance

/-- The locals of `mpff_decode_frame` that survive the validation of lines
52-99, and the diagnostics logged on the way. -/
structure Sizes where
  /-- The local `fsize` as line 93 compares it: clamped, then fixed up. -/
  fsize : Nat
  /-- The local `hsize`. -/
  hsize : Nat
  /-- The local `ihsize`. -/
  ihsize : Nat
  /-- The diagnostics logged so far. -/
  log : List LogMsg
  deriving DecidableEq

/-- Lines 52-99 of `workingdec.c`: the checks of `mpff_decode_frame`.  The
result is the run that ends at one of their `return`s (or at an undefined
read), or the locals with which line 103 is reached. -/
def header_checks (env : Env) (pkt : List Nat) : Except Run Sizes :=
  let buf_size : Int := (pkt.length : Int)
  -- lines 52-56
  if buf_size < 12 then
    Except.error
      (Run.reject env AVERROR_INVALIDDATA [LogMsg.buf_size_too_small buf_size] [])
  -- lines 59-66, the operands of `||` being evaluated left to right
  else if bytestream_get_byte pkt 0 ≠ 77 then
    Except.error
      (Run.reject env AVERROR_INVALIDDATA [LogMsg.bad_magic_number] [(0, 1)])
  else if bytestream_get_byte pkt 1 ≠ 80 then
    Except.error
      (Run.reject env AVERROR_INVALIDDATA [LogMsg.bad_magic_number] [(0, 1), (1, 1)])
  else if bytestream_get_byte pkt 2 ≠ 70 then
    Except.error
      (Run.reject env AVERROR_INVALIDDATA [LogMsg.bad_magic_number]
        [(0, 1), (1, 1), (2, 1)])
  else if bytestream_get_byte pkt 3 ≠ 70 then
    Except.error
      (Run.reject env AVERROR_INVALIDDATA [LogMsg.bad_magic_number]
        [(0, 1), (1, 1), (2, 1), (3, 1)])
  else
    -- lines 69-75
    let fsize0 := bytestream_get_le32 pkt 4
    let log1 : List LogMsg :=
      if toU32 buf_size < fsize0 then [LogMsg.not_enough_data buf_size fsize0] else []
    let fsize1 := clamp_fsize buf_size fsize0
    -- lines 78-79
    let hsize := bytestream_get_le32 pkt 8
    if pkt.length < 16 then
      Except.error (Run.stuck env (Undefined.read_past_input 12 4) log1 reads_to_hsize)
    else
      let ihsize := bytestream_get_le32 pkt 12
      -- lines 82-86, the comparison being made in `long long`
      if (ihsize : Int) + 12 > (hsize : Int) then
        Except.error
          (Run.reject env AVERROR_INVALIDDATA
            (log1 ++ [LogMsg.invalid_header_size hsize]) (reads_to_hsize ++ [(12, 4)]))
      else
        -- lines 89-90
        let fsize := fixup_fsize buf_size ihsize fsize1
        -- lines 93-99
        if fsize ≤ hsize then
          Except.error
            (Run.reject env AVERROR_INVALIDDATA
              (log1 ++ [LogMsg.declared_file_size_less fsize hsize])
              (reads_to_hsize ++ [(12, 4)]))
        else
          Except.ok { fsize := fsize, hsize := hsize, ihsize := ihsize, log := log1 }

/-- Lines 103-161 of `workingdec.c`: what `mpff_decode_frame` does once the
checks have passed; of the locals of the checks only `hsize` is still used.
The run records the diagnostics and the reads of these lines alone. -/
def decode_picture (ff_get_buffer : Host) (env : Env) (pkt : List Nat)
    (hsize : Nat) : Run :=
  let buf_size : Int := (pkt.length : Int)
  -- lines 103-105
  if pkt.length < 20 then
    Run.stuck env (Undefined.read_past_input 16 4) [] []
  else if pkt.length < 24 then
    Run.stuck env (Undefined.read_past_input 20 4) [] [(16, 4)]
  else if pkt.length < 26 then
    Run.stuck env (Undefined.read_past_input 24 2) [] [(16, 4), (20, 4)]
  else
    let width := toInt32 (bytestream_get_le32 pkt 16)
    let height := toInt32 (bytestream_get_le32 pkt 20)
    let depth := bytestream_get_le16 pkt 24
    let reads1 : List (Nat × Nat) := [(16, 4), (20, 4), (24, 2)]
    -- lines 107-114
    let avctx : AVCodecContext :=
      { width := width,
        height := if height > 0 then height else wrap32 (-height),
        pix_fmt := AVPixelFormat.AV_PIX_FMT_BGR24 }
    -- lines 117-120
    if avctx.pix_fmt = AVPixelFormat.AV_PIX_FMT_NONE then
      { out := Outcome.returned AVERROR_INVALIDDATA,
        env := { env with avctx := avctx },
        log := [LogMsg.unsupported_pixel_format],
        reads := reads1, requests := [], writes := [] }
    else
      -- lines 123-124
      let got := ff_get_buffer avctx env.p
      if got.1 < 0 then
        { out := Outcome.returned got.1,
          env := { env with avctx := avctx, p := got.2 },
          log := [], reads := reads1, requests := [avctx], writes := [] }
      else
        -- lines 127-128
        let p : AVFrame :=
          { got.2 with pict_type := AVPictureType.AV_PICTURE_TYPE_I, key_frame := 1 }
        -- lines 131-135: the read cursor is moved to `buf0 + hsize`; the local
        -- `dsize = buf_size - hsize` is assigned and never read
        let n := row_stride avctx.width depth
        -- lines 139-148
        let ptr : Int :=
          if height > 0 then wrap32 ((avctx.height - 1) * p.linesize) else 0
        let linesize : Int :=
          if height > 0 then wrap32 (-p.linesize) else p.linesize
        -- lines 151-156
        let r := row_loop pkt n linesize avctx.height.toNat hsize ptr p.data
        match r.ub with
        | some u =>
          { out := Outcome.undefined u,
            env := { env with avctx := avctx, p := { p with data := r.data } },
            log := [], reads := reads1 ++ r.reads, requests := [avctx],
            writes := r.writes }
        | none =>
          -- lines 159-161
          { out := Outcome.returned buf_size,
            env := { avctx := avctx, p := { p with data := r.data }, got_frame := 1 },
            log := [], reads := reads1 ++ r.reads, requests := [avctx],
            writes := r.writes }

/-- The function `mpff_decode_frame` of `workingdec.c`: the checks of lines
52-99, then lines 103-161; the diagnostics and the reads of the two parts
follow each other. -/
def mpff_decode_frame (ff_get_buffer : Host) (env : Env) (pkt : List Nat) : Run :=
  match header_checks env pkt with
  | Except.error r => r
  | Except.ok s =>
    let r := decode_picture ff_get_buffer env pkt s.hsize
    { out := r.out, env := r.env, log := s.log ++ r.log,
      reads := reads_to_hsize ++ [(12, 4)] ++ r.reads,
      requests := r.requests, writes := r.writes }

namespace JLDec

/-- The function `mpff_decode_frame` of `jldec.c`, the first draft: after the
two checks it shares with `workingdec.c` it reads the locals `width` and
`height`, which are never assigned. -/
def mpff_decode_frame (env : Env) (pkt : List Nat) : Run :=
  let buf_size : Int := (pkt.length : Int)
  -- lines 47-50
  if buf_size < 12 then
    Run.reject env AVERROR_INVALIDDATA [LogMsg.buf_size_too_small buf_size] []
  -- lines 52-60
  else if bytestream_get_byte pkt 0 ≠ 77 then
    Run.reject env AVERROR_INVALIDDATA [LogMsg.bad_magic_number] [(0, 1)]
  else if bytestream_get_byte pkt 1 ≠ 80 then
    Run.reject env AVERROR_INVALIDDATA [LogMsg.bad_magic_number] [(0, 1), (1, 1)]
  else if bytestream_get_byte pkt 2 ≠ 70 then
    Run.reject env AVERROR_INVALIDDATA [LogMsg.bad_magic_number]
      [(0, 1), (1, 1), (2, 1)]
  else if bytestream_get_byte pkt 3 ≠ 70 then
    Run.reject env AVERROR_INVALIDDATA [LogMsg.bad_magic_number]
      [(0, 1), (1, 1), (2, 1), (3, 1)]
  else
    -- line 65: `avctx->width = width;`
    Run.stuck env Undefined.uninitialised_read [] [(0, 1), (1, 1), (2, 1), (3, 1)]

end JLDec

/-! ## Sample host and objects -/

/-- A host that grants a zeroed plane of `avctx->height` rows of `L` bytes. -/
def grant (L : Nat) : Host := fun avctx p =>
  (0, { p with data := List.replicate (avctx.height.toNat * L) 0, linesize := (L : Int) })

/-- A host that grants a plane of `avctx->height` rows of `L` bytes, every byte
of which holds `b`. -/
def grant_filled (L b : Nat) : Host := fun avctx p =>
  (0, { p with data := List.replicate (avctx.height.toNat * L) b, linesize := (L : Int) })

/-- A host that refuses every request with the code `ret`. -/
def refuse (ret : Int) : Host := fun _ p => (ret, p)

/-- Objects as a caller hands them over before the first frame. -/
def env0 : Env :=
  { avctx := { width := 0, height := 0, pix_fmt := AVPixelFormat.AV_PIX_FMT_NONE },
    p := { data := [], linesize := 0,
           pict_type := AVPictureType.AV_PICTURE_TYPE_NONE, key_frame := 0 },
    got_frame := 0 }

/-- The four bytes `put_le32` would store for `v`. -/
def le32_bytes (v : Nat) : List Nat :=
  [v % 256, v / 256 % 256, v / 65536 % 256, v / 16777216 % 256]

/-- A 26-byte MPFF header with the given field values. -/
def mk_header (fsize hsize ihsize width height depth : Nat) : List Nat :=
  [77, 80, 70, 70] ++ le32_bytes fsize ++ le32_bytes hsize ++ le32_bytes ihsize
    ++ le32_bytes width ++ le32_bytes height ++ [depth % 256, depth / 256 % 256]


/-- A bottom-up picture of width 1 and height 2 at depth 24: a sound 26-byte
header followed by the two 4-byte rows `1 2 3 4` and `5 6 7 8`. -/
def sample_bottom_up : List Nat :=
  mk_header 34 26 14 1 2 24 ++ [1, 2, 3, 4, 5, 6, 7, 8]

/-- The picture of `sample_bottom_up` stored top-down (raw height `-2`). -/
def sample_top_down : List Nat :=
  mk_header 34 26 14 1 4294967294 24 ++ [1, 2, 3, 4, 5, 6, 7, 8]

/-- A bottom-up picture of width 1 and height 1 at depth 24 (row stride 4)
whose pixel data is cut after 2 bytes: a sound 26-byte header declaring
`file_size = 28` and `header_size = 26`, followed by the bytes `1 2`. -/
def sample_truncated : List Nat :=
  mk_header 28 26 14 1 1 24 ++ [1, 2]

/-- A top-down picture of width 1 whose raw height is `INT_MIN` (bytes
`00 00 00 80` at offset 20): a sound 26-byte header declaring `file_size = 30`
and `header_size = 26`, followed by four bytes. -/
def sample_int_min : List Nat :=
  mk_header 30 26 14 1 2147483648 24 ++ [1, 2, 3, 4]

/-- The 12 bytes `MPFF`, `file_size = 12`, `header_size = 12`: an input of the
least length the first check lets through. -/
def sample_file_header : List Nat :=
  [77, 80, 70, 70] ++ le32_bytes 12 ++ le32_bytes 12

/-- The 16 bytes `MPFF`, `file_size = 16`, `header_size = 12`,
`info_header_size = 0`: an input that ends before its geometry fields. -/
def sample_no_geometry : List Nat :=
  [77, 80, 70, 70] ++ le32_bytes 16 ++ le32_bytes 12 ++ le32_bytes 0

/-! ## Theorems -/

/-- C1: an input shorter than 12 bytes is rejected with `AVERROR_INVALIDDATA`
after the diagnostic "buf size too small", whatever its bytes are, and the run
has read no byte of the input; this holds for `workingdec.c` and for
`jldec.c`. -/
theorem short_input_rejected (host : Host) (env : Env) (pkt : List Nat)
    (h : pkt.length < 12) :
    (mpff_decode_frame host env pkt).out = Outcome.returned AVERROR_INVALIDDATA ∧
    (mpff_decode_frame host env pkt).log = [LogMsg.buf_size_too_small pkt.length] ∧
    (mpff_decode_frame host env pkt).reads = [] ∧
    (JLDec.mpff_decode_frame env pkt).out = Outcome.returned AVERROR_INVALIDDATA ∧
    (JLDec.mpff_decode_frame env pkt).log = [LogMsg.buf_size_too_small pkt.length] ∧
    (JLDec.mpff_decode_frame env pkt).reads = [] := by
  have hlt : ((pkt.length : Nat) : Int) < 12 := by omega
  simp [mpff_decode_frame, header_checks, JLDec.mpff_decode_frame, Run.reject, hlt]

/-- Witness of C1 at an 11-byte input that starts with the magic. -/
theorem short_input_rejected_witness :
    [77, 80, 70, 70, 11, 0, 0, 0, 11, 0, 0].length < 12 ∧
    (mpff_decode_frame (grant 4) env0 [77, 80, 70, 70, 11, 0, 0, 0, 11, 0, 0]).out
      = Outcome.returned AVERROR_INVALIDDATA :=
  ⟨by decide,
   (short_input_rejected (grant 4) env0 [77, 80, 70, 70, 11, 0, 0, 0, 11, 0, 0]
      (by decide)).1⟩

/-- C2: an input of at least 12 bytes whose first four bytes are not
`M`,`P`,`F`,`F` is rejected with `AVERROR_INVALIDDATA` after the diagnostic
"bad magic number"; the run reads nothing after offset 3, and every input of
at least 12 bytes with the same first four bytes has the same run.  This holds
for `workingdec.c` and for `jldec.c`. -/
theorem bad_magic_rejected (host : Host) (env : Env) (pkt : List Nat)
    (hlen : 12 ≤ pkt.length) (hbytes : ∀ b ∈ pkt, b < 256)
    (hmagic : pkt.take 4 ≠ [77, 80, 70, 70]) :
    (mpff_decode_frame host env pkt).rejected_with LogMsg.bad_magic_number ∧
    (∀ r ∈ (mpff_decode_frame host env pkt).reads, r.1 + r.2 ≤ 4) ∧
    (JLDec.mpff_decode_frame env pkt).rejected_with LogMsg.bad_magic_number ∧
    (∀ r ∈ (JLDec.mpff_decode_frame env pkt).reads, r.1 + r.2 ≤ 4) ∧
    (∀ (host2 : Host) (pkt2 : List Nat), 12 ≤ pkt2.length → pkt2.take 4 = pkt.take 4 →
      mpff_decode_frame host2 env pkt2 = mpff_decode_frame host env pkt ∧
      JLDec.mpff_decode_frame env pkt2 = JLDec.mpff_decode_frame env pkt) := by
  rcases pkt with _ | ⟨a, _ | ⟨b, _ | ⟨c, _ | ⟨d, rest⟩⟩⟩⟩ <;>
    simp only [List.length_nil, List.length_cons] at hlen <;> try omega
  have ha : a < 256 := hbytes a (by simp)
  have hb : b < 256 := hbytes b (by simp)
  have hc : c < 256 := hbytes c (by simp)
  have hd : d < 256 := hbytes d (by simp)
  have hm : ¬ (a = 77 ∧ b = 80 ∧ c = 70 ∧ d = 70) := by
    intro h
    apply hmagic
    simp [h.1, h.2.1, h.2.2.1, h.2.2.2]
  have hl : ¬ (((rest.length + 1 + 1 + 1 + 1 : Nat) : Int) < 12) := by omega
  have key : ∀ (h2 : Host) (r2 : List Nat), 12 ≤ (a :: b :: c :: d :: r2).length →
      (mpff_decode_frame h2 env (a :: b :: c :: d :: r2)).rejected_with
          LogMsg.bad_magic_number ∧
      (∀ r ∈ (mpff_decode_frame h2 env (a :: b :: c :: d :: r2)).reads, r.1 + r.2 ≤ 4) ∧
      (JLDec.mpff_decode_frame env (a :: b :: c :: d :: r2)).rejected_with
          LogMsg.bad_magic_number ∧
      (∀ r ∈ (JLDec.mpff_decode_frame env (a :: b :: c :: d :: r2)).reads,
          r.1 + r.2 ≤ 4) ∧
      mpff_decode_frame h2 env (a :: b :: c :: d :: r2)
        = mpff_decode_frame host env (a :: b :: c :: d :: rest) ∧
      JLDec.mpff_decode_frame env (a :: b :: c :: d :: r2)
        = JLDec.mpff_decode_frame env (a :: b :: c :: d :: rest) := by
    intro h2 r2 hl2
    have hl2 : ¬ (((r2.length + 1 + 1 + 1 + 1 : Nat) : Int) < 12) := by
      simp only [List.length_cons] at hl2; omega
    simp only [mpff_decode_frame, header_checks, JLDec.mpff_decode_frame,
      bytestream_get_byte, List.length_cons, List.getD_cons_zero, List.getD_cons_succ,
      Nat.mod_eq_of_lt ha, Nat.mod_eq_of_lt hb, Nat.mod_eq_of_lt hc, Nat.mod_eq_of_lt hd,
      hl, hl2, if_false, Run.rejected_with, Run.reject]
    by_cases h0 : a = 77
    · by_cases h1 : b = 80
      · by_cases h2 : c = 70
        · have h3 : d ≠ 70 := fun h3 => hm ⟨h0, h1, h2, h3⟩
          simp [h0, h1, h2, h3]
        · simp [h0, h1, h2]
      · simp [h0, h1]
    · simp [h0]
  refine ⟨(key host rest (by simp only [List.length_cons]; omega)).1,
    (key host rest (by simp only [List.length_cons]; omega)).2.1,
    (key host rest (by simp only [List.length_cons]; omega)).2.2.1,
    (key host rest (by simp only [List.length_cons]; omega)).2.2.2.1, ?_⟩
  intro host2 pkt2 hlen2 htake
  rcases pkt2 with _ | ⟨a2, _ | ⟨b2, _ | ⟨c2, _ | ⟨d2, rest2⟩⟩⟩⟩ <;>
    simp only [List.length_nil, List.length_cons] at hlen2 <;> try omega
  simp only [List.take_succ_cons, List.take_zero, List.cons.injEq, and_true] at htake
  obtain ⟨e1, e2, e3, e4⟩ := htake
  subst e1 e2 e3 e4
  exact (key host2 rest2 (by simp only [List.length_cons]; omega)).2.2.2.2

/-- Witness of C2 at a 12-byte input whose fourth byte is `G`. -/
theorem bad_magic_rejected_witness :
    (12 ≤ [77, 80, 70, 71, 12, 0, 0, 0, 12, 0, 0, 0].length ∧
      [77, 80, 70, 71, 12, 0, 0, 0, 12, 0, 0, 0].take 4 ≠ [77, 80, 70, 70]) ∧
    (mpff_decode_frame (grant 4) env0
      [77, 80, 70, 71, 12, 0, 0, 0, 12, 0, 0, 0]).rejected_with LogMsg.bad_magic_number :=
  ⟨by decide,
   (bad_magic_rejected (grant 4) env0 [77, 80, 70, 71, 12, 0, 0, 0, 12, 0, 0, 0]
      (by decide) (by decide) (by decide)).1⟩

/-! ### Shared lemmas: machine integers and the header -/

theorem toU32_natCast (n : Nat) (h : n < 4294967296) : toU32 (n : Int) = n := by
  unfold toU32
  omega

theorem toU32_natCast_sub_two (n : Nat) (h2 : 2 ≤ n) (h : n < 4294967296) :
    toU32 ((n : Int) - 2) = n - 2 := by
  unfold toU32
  omega

theorem bytestream_get_byte_lt (pkt : List Nat) (pos : Nat) :
    bytestream_get_byte pkt pos < 256 := by
  unfold bytestream_get_byte
  omega

theorem bytestream_get_le32_lt (pkt : List Nat) (pos : Nat) :
    bytestream_get_le32 pkt pos < 4294967296 := by
  have h0 := bytestream_get_byte_lt pkt pos
  have h1 := bytestream_get_byte_lt pkt (pos + 1)
  have h2 := bytestream_get_byte_lt pkt (pos + 2)
  have h3 := bytestream_get_byte_lt pkt (pos + 3)
  unfold bytestream_get_le32
  omega

theorem magic_bytes (pkt : List Nat) (hmagic : pkt.take 4 = [77, 80, 70, 70]) :
    bytestream_get_byte pkt 0 = 77 ∧ bytestream_get_byte pkt 1 = 80 ∧
    bytestream_get_byte pkt 2 = 70 ∧ bytestream_get_byte pkt 3 = 70 := by
  rcases pkt with _ | ⟨a, _ | ⟨b, _ | ⟨c, _ | ⟨d, rest⟩⟩⟩⟩ <;>
    simp at hmagic
  obtain ⟨e1, e2, e3, e4⟩ := hmagic
  subst e1 e2 e3 e4
  simp [bytestream_get_byte]

/-- The checks of lines 52-99 on an input with the magic whose `ihsize` field
lies in the input, written with exact integers. -/
theorem header_checks_of_magic (env : Env) (pkt : List Nat)
    (h16 : 16 ≤ pkt.length) (h31 : pkt.length < 2147483648)
    (hmagic : pkt.take 4 = [77, 80, 70, 70]) :
    header_checks env pkt =
      if bytestream_get_le32 pkt 8 < bytestream_get_le32 pkt 12 + 12 then
        Except.error (Run.reject env AVERROR_INVALIDDATA
          ((if pkt.length < bytestream_get_le32 pkt 4 then
              [LogMsg.not_enough_data pkt.length (bytestream_get_le32 pkt 4)] else [])
            ++ [LogMsg.invalid_header_size (bytestream_get_le32 pkt 8)])
          (reads_to_hsize ++ [(12, 4)]))
      else if (if min (bytestream_get_le32 pkt 4) pkt.length = 12 ∨
                  min (bytestream_get_le32 pkt 4) pkt.length
                    = bytestream_get_le32 pkt 12 + 12
               then pkt.length - 2 else min (bytestream_get_le32 pkt 4) pkt.length)
              ≤ bytestream_get_le32 pkt 8 then
        Except.error (Run.reject env AVERROR_INVALIDDATA
          ((if pkt.length < bytestream_get_le32 pkt 4 then
              [LogMsg.not_enough_data pkt.length (bytestream_get_le32 pkt 4)] else [])
            ++ [LogMsg.declared_file_size_less
                  (if min (bytestream_get_le32 pkt 4) pkt.length = 12 ∨
                      min (bytestream_get_le32 pkt 4) pkt.length
                        = bytestream_get_le32 pkt 12 + 12
                   then pkt.length - 2 else min (bytestream_get_le32 pkt 4) pkt.length)
                  (bytestream_get_le32 pkt 8)])
          (reads_to_hsize ++ [(12, 4)]))
      else
        Except.ok
          { fsize := if min (bytestream_get_le32 pkt 4) pkt.length = 12 ∨
                        min (bytestream_get_le32 pkt 4) pkt.length
                          = bytestream_get_le32 pkt 12 + 12
                     then pkt.length - 2 else min (bytestream_get_le32 pkt 4) pkt.length,
            hsize := bytestream_get_le32 pkt 8,
            ihsize := bytestream_get_le32 pkt 12,
            log := if pkt.length < bytestream_get_le32 pkt 4 then
              [LogMsg.not_enough_data pkt.length (bytestream_get_le32 pkt 4)] else [] } := by
  obtain ⟨m0, m1, m2, m3⟩ := magic_bytes pkt hmagic
  have hh := bytestream_get_le32_lt pkt 8
  have hl12 : ¬ ((pkt.length : Int) < 12) := by omega
  have hl16 : ¬ (pkt.length < 16) := by omega
  have hu : toU32 (pkt.length : Int) = pkt.length := toU32_natCast _ (by omega)
  have hu2 : toU32 ((pkt.length : Int) - 2) = pkt.length - 2 :=
    toU32_natCast_sub_two _ (by omega) (by omega)
  simp only [header_checks, m0, m1, m2, m3, hl12, hl16, hu, hu2, clamp_fsize, fixup_fsize,
    ne_eq, not_true_eq_false, if_false]
  by_cases hih : bytestream_get_le32 pkt 8 < bytestream_get_le32 pkt 12 + 12
  · have hih2 : ((bytestream_get_le32 pkt 12 : Nat) : Int) + 12
        > ((bytestream_get_le32 pkt 8 : Nat) : Int) := by omega
    simp only [hih, hih2, if_true]
  · have hih2 : ¬ (((bytestream_get_le32 pkt 12 : Nat) : Int) + 12
        > ((bytestream_get_le32 pkt 8 : Nat) : Int)) := by omega
    have hmod : (bytestream_get_le32 pkt 12 + 12) % 4294967296
        = bytestream_get_le32 pkt 12 + 12 := Nat.mod_eq_of_lt (by omega)
    have hmin : (if pkt.length < bytestream_get_le32 pkt 4 then pkt.length
        else bytestream_get_le32 pkt 4) = min (bytestream_get_le32 pkt 4) pkt.length := by
      split_ifs <;> omega
    simp only [hih, hih2, if_false, hmod, hmin]

/-- Lines 103-161 log nothing: a run that has passed the checks carries the
diagnostics of the checks only. -/
theorem decode_picture_log (host : Host) (env : Env) (pkt : List Nat) (hsize : Nat) :
    (decode_picture host env pkt hsize).log = [] := by
  unfold decode_picture
  simp only [Run.stuck]
  split_ifs <;> first | rfl | (split <;> rfl) | simp_all

/-- C3: an input with the magic whose `header_size` (offset 8) and
`info_header_size` (offset 12) fields satisfy, as exact integers,
`info_header_size + 12 > header_size` is rejected with `AVERROR_INVALIDDATA`
after the diagnostic "invalid header size", whatever its other bytes are; the
host is not asked for a buffer and the objects handed over are unchanged. -/
theorem invalid_header_size_rejected (host : Host) (env : Env) (pkt : List Nat)
    (h16 : 16 ≤ pkt.length) (h31 : pkt.length < 2147483648)
    (hmagic : pkt.take 4 = [77, 80, 70, 70])
    (hsz : bytestream_get_le32 pkt 12 + 12 > bytestream_get_le32 pkt 8) :
    (mpff_decode_frame host env pkt).rejected_with
      (LogMsg.invalid_header_size (bytestream_get_le32 pkt 8)) ∧
    (mpff_decode_frame host env pkt).requests = [] ∧
    (mpff_decode_frame host env pkt).env = env := by
  have hsz2 : bytestream_get_le32 pkt 8 < bytestream_get_le32 pkt 12 + 12 := hsz
  simp [mpff_decode_frame, header_checks_of_magic env pkt h16 h31 hmagic, hsz2,
    Run.rejected_with, Run.reject]

/-- Witness of C3: `header_size = 100` and `info_header_size = 4294967288`,
whose sum with 12 is above `header_size` as an exact integer although it is 4
modulo `2^32`. -/
theorem invalid_header_size_rejected_witness :
    (bytestream_get_le32 (mk_header 26 100 4294967288 1 1 24) 12 + 12
      > bytestream_get_le32 (mk_header 26 100 4294967288 1 1 24) 8) ∧
    (bytestream_get_le32 (mk_header 26 100 4294967288 1 1 24) 12 + 12) % 4294967296 = 4 ∧
    (mpff_decode_frame (grant 4) env0 (mk_header 26 100 4294967288 1 1 24)).rejected_with
      (LogMsg.invalid_header_size
        (bytestream_get_le32 (mk_header 26 100 4294967288 1 1 24) 8)) :=
  ⟨by decide, by decide,
   (invalid_header_size_rejected (grant 4) env0 (mk_header 26 100 4294967288 1 1 24)
      (by decide) (by decide) (by decide) (by decide)).1⟩

theorem land_clear_low2 (x : Nat) (hx : x < 4294967296) :
    Nat.land x 4294967292 = 4 * (x / 4) := by
  apply Nat.eq_of_testBit_eq
  intro i
  have hc : (4294967292 : Nat) = 2 ^ 2 * (2 ^ 30 - 1) := by norm_num
  have h4 : (4 : Nat) = 2 ^ 2 := by norm_num
  show (x &&& 4294967292).testBit i = _
  rw [Nat.testBit_and, hc, h4, Nat.testBit_mul_pow_two, Nat.testBit_mul_pow_two,
    Nat.testBit_two_pow_sub_one, ← Nat.shiftRight_eq_div_pow, Nat.testBit_shiftRight]
  by_cases hi : 2 ≤ i
  · by_cases hi2 : i - 2 < 30
    · have : 2 + (i - 2) = i := by omega
      simp [hi, hi2, this]
    · have hlt : x < 2 ^ i := lt_of_lt_of_le hx (by
        have : (4294967296 : Nat) = 2 ^ 32 := by norm_num
        rw [this]
        exact Nat.pow_le_pow_right (by norm_num) (by omega))
      have : 2 + (i - 2) = i := by omega
      simp [hi, hi2, this, Nat.testBit_lt_two_pow hlt]
  · simp [hi]

theorem row_stride_eq (width : Int) (depth : Nat) :
    row_stride width depth
      = 4 * ((((toU32 width * depth) % 4294967296 + 31) % 4294967296 / 8) / 4) := by
  unfold row_stride
  exact land_clear_low2 _ (by omega)

theorem row_stride_lt (width : Int) (depth : Nat) : row_stride width depth < 536870912 := by
  rw [row_stride_eq]
  omega

/-- C9: for a width `width >= 0` and a depth with `width * depth + 31 < 2^32`,
the row stride `((width * depth + 31) / 8) & ~3` of line 135 is the unpadded
row length `ceil(width * depth / 8)` rounded up to the next multiple of 4: it
is a multiple of 4, at least the unpadded length and less than 4 above it.
Width 5 at depth 24 gives 16 and width 4 at depth 24 gives 12. -/
theorem row_stride_rounds_up (width depth : Nat)
    (h : width * depth + 31 < 4294967296) :
    row_stride (width : Int) depth = 4 * (((width * depth + 7) / 8 + 3) / 4) ∧
    row_stride (width : Int) depth % 4 = 0 ∧
    (width * depth + 7) / 8 ≤ row_stride (width : Int) depth ∧
    row_stride (width : Int) depth < (width * depth + 7) / 8 + 4 ∧
    row_stride 5 24 = 16 ∧ row_stride 4 24 = 12 := by
  have hprod : toU32 (width : Int) * depth = width * depth := by
    rcases Nat.eq_zero_or_pos depth with hd | hd
    · simp [hd]
    · have hw : width ≤ width * depth := Nat.le_mul_of_pos_right width hd
      rw [toU32_natCast width (by omega)]
  have h1 : (width * depth) % 4294967296 = width * depth := Nat.mod_eq_of_lt (by omega)
  have h2 : (width * depth + 31) % 4294967296 = width * depth + 31 := Nat.mod_eq_of_lt h
  have e : row_stride (width : Int) depth = 4 * ((width * depth + 31) / 8 / 4) := by
    rw [row_stride_eq, hprod, h1, h2]
  refine ⟨?_, ?_, ?_, ?_, by decide, by decide⟩ <;> rw [e] <;> omega

/-- Witness of C9 at width 5, depth 24: 120 bits, 15 bytes, padded to 16. -/
theorem row_stride_rounds_up_witness :
    5 * 24 + 31 < 4294967296 ∧ row_stride ((5 : Nat) : Int) 24 = 4 * (((5 * 24 + 7) / 8 + 3) / 4) :=
  ⟨by decide, (row_stride_rounds_up 5 24 (by decide)).1⟩

/-! ### Shared lemmas: the row loop -/

theorem memcpy_length (dst : List Nat) (off : Nat) (src : List Nat)
    (h : off + src.length ≤ dst.length) : (memcpy dst off src).length = dst.length := by
  simp only [memcpy, List.length_append, List.length_take, List.length_drop]
  omega

theorem memcpy_getElem (dst : List Nat) (off : Nat) (src : List Nat)
    (h : off + src.length ≤ dst.length) (j : Nat) :
    (memcpy dst off src)[j]? =
      if j < off then dst[j]? else if j < off + src.length then src[j - off]? else dst[j]? := by
  have hlt : (List.take off dst).length = off := by
    rw [List.length_take]; omega
  simp only [memcpy, List.append_assoc]
  rw [List.getElem?_append, hlt]
  by_cases h1 : j < off
  · simp [h1, List.getElem?_take]
  · simp only [h1, if_false]
    rw [List.getElem?_append]
    by_cases h2 : j < off + src.length
    · have h3 : j - off < src.length := by omega
      simp [h2, h3]
    · have h3 : ¬ (j - off < src.length) := by omega
      simp only [h2, h3, if_false, List.getElem?_drop]
      congr 1
      omega

theorem source_row_length (pkt : List Nat) (buf n : Nat) (h : buf + n ≤ pkt.length) :
    ((pkt.drop buf).take n).length = n := by
  rw [List.length_take, List.length_drop]
  omega

theorem source_row_getElem (pkt : List Nat) (buf n c : Nat) (hc : c < n) :
    ((pkt.drop buf).take n)[c]? = pkt[buf + c]? := by
  rw [List.getElem?_take_of_lt hc, List.getElem?_drop]

/-- The row loop with a forward destination step `L >= n`, run for `rows`
rows from input offset `buf` and plane offset `base`, when the input holds the
`rows` source rows and the plane holds `rows` lines from `base`: it stays
defined, input row `i` is in the plane at `base + i * L`, every other byte of
the plane is unchanged, and the reads and writes are the `rows` row ranges in
ascending order. -/
theorem row_loop_forward (pkt : List Nat) (n L : Nat) (hn : n ≤ L) :
    ∀ (rows buf base : Nat) (data : List Nat),
      buf + rows * n ≤ pkt.length → base + rows * L ≤ data.length →
      (row_loop pkt n (L : Int) rows buf (base : Int) data).ub = none ∧
      (row_loop pkt n (L : Int) rows buf (base : Int) data).data.length = data.length ∧
      (∀ i, i < rows → ∀ c, c < n →
        (row_loop pkt n (L : Int) rows buf (base : Int) data).data[base + i * L + c]?
          = pkt[buf + i * n + c]?) ∧
      (∀ j, (∀ i, i < rows → j < base + i * L ∨ base + i * L + n ≤ j) →
        (row_loop pkt n (L : Int) rows buf (base : Int) data).data[j]? = data[j]?) ∧
      (row_loop pkt n (L : Int) rows buf (base : Int) data).reads
        = (List.range rows).map (fun i => (buf + i * n, n)) ∧
      (row_loop pkt n (L : Int) rows buf (base : Int) data).writes
        = (List.range rows).map (fun i => (((base + i * L : Nat) : Int), n)) := by
  intro rows
  induction rows with
  | zero =>
    intro buf base data _ _
    simp [row_loop]
  | succ k ih =>
    intro buf base data hsrc hdst
    have e1 : (k + 1) * n = k * n + n := Nat.succ_mul k n
    have e2 : (k + 1) * L = k * L + L := Nat.succ_mul k L
    have hr : ¬ (pkt.length < buf + n) := by omega
    have hw : ¬ (((base : Nat) : Int) < 0 ∨ ((data.length : Nat) : Int) < (base : Int) + (n : Int)) := by
      omega
    have hrow := source_row_length pkt buf n (by omega)
    have hlen1 : (memcpy data base ((pkt.drop buf).take n)).length = data.length :=
      memcpy_length _ _ _ (by rw [hrow]; omega)
    have hcast : ((base : Nat) : Int) + ((L : Nat) : Int) = ((base + L : Nat) : Int) := by
      push_cast; rfl
    obtain ⟨i1, i2, i3, i4, i5, i6⟩ := ih (buf + n) (base + L)
      (memcpy data base ((pkt.drop buf).take n)) (by omega) (by rw [hlen1]; omega)
    simp only [row_loop, hr, hw, if_false, Int.toNat_ofNat, hcast]
    refine ⟨i1, by rw [i2, hlen1], ?_, ?_, ?_, ?_⟩
    · intro i hi c hc
      rcases i with _ | i
      · rw [i4 (base + 0 * L + c) (by
          intro i' _
          omega)]
        rw [memcpy_getElem _ _ _ (by rw [hrow]; omega), hrow]
        have h1 : ¬ (base + 0 * L + c < base) := by omega
        have h2 : base + 0 * L + c < base + n := by omega
        simp only [h1, h2, if_false, if_true]
        rw [source_row_getElem pkt buf n _ (by omega)]
        congr 1
        omega
      · have h := i3 i (by omega) c hc
        have e3 : (i + 1) * L = i * L + L := Nat.succ_mul i L
        have e4 : (i + 1) * n = i * n + n := Nat.succ_mul i n
        have a1 : base + (i + 1) * L + c = base + L + i * L + c := by omega
        have a2 : buf + (i + 1) * n + c = buf + n + i * n + c := by omega
        rw [a1, a2]
        exact h
    · intro j hj
      rw [i4 j (by
        intro i' hi'
        have e3 : (i' + 1) * L = i' * L + L := Nat.succ_mul i' L
        have := hj (i' + 1) (by omega)
        omega)]
      rw [memcpy_getElem _ _ _ (by rw [hrow]; omega), hrow]
      have h0 := hj 0 (by omega)
      have h1 : j < base ∨ base + n ≤ j := by omega
      rcases h1 with h1 | h1
      · simp [h1]
      · have h2 : ¬ (j < base) := by omega
        have h3 : ¬ (j < base + n) := by omega
        simp [h2, h3]
    · rw [i5, List.range_succ_eq_map, List.map_cons, List.map_map]
      simp only [Nat.zero_mul, Nat.add_zero, List.cons.injEq, true_and]
      apply List.map_congr_left
      intro i _
      have e4 : (i + 1) * n = i * n + n := Nat.succ_mul i n
      simp only [Function.comp, Nat.succ_eq_add_one, Prod.mk.injEq, and_true]
      omega
    · rw [i6, List.range_succ_eq_map, List.map_cons, List.map_map]
      simp only [Nat.zero_mul, Nat.add_zero, List.cons.injEq, true_and]
      apply List.map_congr_left
      intro i _
      have e3 : (i + 1) * L = i * L + L := Nat.succ_mul i L
      simp only [Function.comp, Nat.succ_eq_add_one, Prod.mk.injEq, and_true]
      omega

/-- The row loop with a backward destination step `-L`, `L >= n`, run for
`rows` rows from input offset `buf` and from the last of the `rows` lines of
the plane: it stays defined, input row `i` is in the plane at line
`rows - 1 - i`, every other byte of the plane is unchanged, the reads are the
`rows` source ranges in ascending order and the writes are the `rows` lines in
descending order. -/
theorem row_loop_backward (pkt : List Nat) (n L : Nat) (hn : n ≤ L) :
    ∀ (rows buf : Nat) (data : List Nat),
      buf + rows * n ≤ pkt.length → rows * L ≤ data.length →
      (row_loop pkt n (-(L : Int)) rows buf ((rows : Int) * L - L) data).ub = none ∧
      (row_loop pkt n (-(L : Int)) rows buf ((rows : Int) * L - L) data).data.length
        = data.length ∧
      (∀ i, i < rows → ∀ c, c < n →
        (row_loop pkt n (-(L : Int)) rows buf ((rows : Int) * L - L) data).data[
            (rows - 1 - i) * L + c]?
          = pkt[buf + i * n + c]?) ∧
      (∀ j, (∀ i, i < rows → j < i * L ∨ i * L + n ≤ j) →
        (row_loop pkt n (-(L : Int)) rows buf ((rows : Int) * L - L) data).data[j]?
          = data[j]?) ∧
      (row_loop pkt n (-(L : Int)) rows buf ((rows : Int) * L - L) data).reads
        = (List.range rows).map (fun i => (buf + i * n, n)) ∧
      (row_loop pkt n (-(L : Int)) rows buf ((rows : Int) * L - L) data).writes
        = (List.range rows).map (fun i => ((((rows - 1 - i) * L : Nat) : Int), n)) := by
  intro rows
  induction rows with
  | zero =>
    intro buf data _ _
    simp [row_loop]
  | succ k ih =>
    intro buf data hsrc hdst
    have e1 : (k + 1) * n = k * n + n := Nat.succ_mul k n
    have e2 : (k + 1) * L = k * L + L := Nat.succ_mul k L
    have hptr : ((k + 1 : Nat) : Int) * (L : Int) - (L : Int) = ((k * L : Nat) : Int) := by
      push_cast; ring
    have hnext : ((k * L : Nat) : Int) + -(L : Int) = (k : Int) * (L : Int) - (L : Int) := by
      push_cast; ring
    have hr : ¬ (pkt.length < buf + n) := by omega
    have hw : ¬ (((k * L : Nat) : Int) < 0 ∨
        ((data.length : Nat) : Int) < ((k * L : Nat) : Int) + (n : Int)) := by
      omega
    have hrow := source_row_length pkt buf n (by omega)
    have hlen1 : (memcpy data (k * L) ((pkt.drop buf).take n)).length = data.length :=
      memcpy_length _ _ _ (by rw [hrow]; omega)
    obtain ⟨i1, i2, i3, i4, i5, i6⟩ := ih (buf + n)
      (memcpy data (k * L) ((pkt.drop buf).take n)) (by omega) (by rw [hlen1]; omega)
    have hmono : ∀ i', i' < k → i' * L + L ≤ k * L := by
      intro i' hi'
      have h := Nat.mul_le_mul_right L (show i' + 1 ≤ k by omega)
      rw [Nat.succ_mul] at h
      exact h
    rw [hptr]
    simp only [row_loop, hr, hw, if_false, Int.toNat_ofNat, hnext]
    refine ⟨i1, by rw [i2, hlen1], ?_, ?_, ?_, ?_⟩
    · intro i hi c hc
      rcases i with _ | i
      · have a0 : (k + 1 - 1 - 0) * L + c = k * L + c := by simp
        rw [a0, i4 (k * L + c) (by
          intro i' hi'
          have := hmono i' hi'
          omega)]
        rw [memcpy_getElem _ _ _ (by rw [hrow]; omega), hrow]
        have h1 : ¬ (k * L + c < k * L) := by omega
        have h2 : k * L + c < k * L + n := by omega
        simp only [h1, h2, if_false, if_true]
        rw [source_row_getElem pkt buf n _ (by omega)]
        congr 1
        omega
      · have h := i3 i (by omega) c hc
        have e4 : (i + 1) * n = i * n + n := Nat.succ_mul i n
        have a1 : k + 1 - 1 - (i + 1) = k - 1 - i := by omega
        have a2 : buf + (i + 1) * n + c = buf + n + i * n + c := by omega
        rw [a1, a2]
        exact h
    · intro j hj
      rw [i4 j (by
        intro i' hi'
        exact hj i' (by omega))]
      rw [memcpy_getElem _ _ _ (by rw [hrow]; omega), hrow]
      have h0 := hj k (by omega)
      rcases h0 with h1 | h1
      · simp [h1]
      · have h2 : ¬ (j < k * L) := by omega
        have h3 : ¬ (j < k * L + n) := by omega
        simp [h2, h3]
    · rw [i5, List.range_succ_eq_map, List.map_cons, List.map_map]
      simp only [Nat.zero_mul, Nat.add_zero, List.cons.injEq, true_and]
      apply List.map_congr_left
      intro i _
      have e4 : (i + 1) * n = i * n + n := Nat.succ_mul i n
      simp only [Function.comp, Nat.succ_eq_add_one, Prod.mk.injEq, and_true]
      omega
    · rw [i6, List.range_succ_eq_map, List.map_cons, List.map_map]
      have a0 : k + 1 - 1 - 0 = k := by omega
      simp only [a0, List.cons.injEq, true_and]
      apply List.map_congr_left
      intro i _
      have a1 : k + 1 - 1 - (i + 1) = k - 1 - i := by omega
      simp only [Function.comp, Nat.succ_eq_add_one, a1]

/-! ### Shared lemmas: after the checks -/

theorem wrap32_of_range (x : Int) (h1 : -2147483648 ≤ x) (h2 : x < 2147483648) :
    wrap32 x = x := by
  unfold wrap32 toInt32 toU32
  split_ifs <;> omega

/-- What a passed validation establishes about the locals. -/
theorem header_checks_ok (env : Env) (pkt : List Nat) (s : Sizes)
    (h : header_checks env pkt = Except.ok s) :
    16 ≤ pkt.length ∧ s.hsize = bytestream_get_le32 pkt 8 ∧
    s.ihsize = bytestream_get_le32 pkt 12 ∧ s.ihsize + 12 ≤ s.hsize ∧
    s.hsize < s.fsize ∧
    s.fsize = fixup_fsize (pkt.length : Int) (bytestream_get_le32 pkt 12)
      (clamp_fsize (pkt.length : Int) (bytestream_get_le32 pkt 4)) := by
  unfold header_checks at h
  simp only at h
  split_ifs at h with c1 c2 c3 c4 c5 c6 c7 c8
  all_goals
    simp only [Except.ok.injEq] at h
    subst h
    have c9 := Nat.lt_of_not_le c8
    have c10 : bytestream_get_le32 pkt 12 + 12 ≤ bytestream_get_le32 pkt 8 := by omega
    simp only [true_and, and_true]
    exact ⟨by omega, c10, c9⟩

/-- Lines 103-161 when the geometry lies in the input and the host grants a
frame: the run is decided by the row loop. -/
theorem decode_picture_granted (host : Host) (env : Env) (pkt : List Nat) (hsize : Nat)
    (h26 : 26 ≤ pkt.length) (ret : Int) (fr : AVFrame) (hret : 0 ≤ ret)
    (hgrant : host
      { width := toInt32 (bytestream_get_le32 pkt 16),
        height := if toInt32 (bytestream_get_le32 pkt 20) > 0
          then toInt32 (bytestream_get_le32 pkt 20)
          else wrap32 (-toInt32 (bytestream_get_le32 pkt 20)),
        pix_fmt := AVPixelFormat.AV_PIX_FMT_BGR24 } env.p = (ret, fr))
    (r : RowLoop)
    (hloop : row_loop pkt
      (row_stride (toInt32 (bytestream_get_le32 pkt 16)) (bytestream_get_le16 pkt 24))
      (if toInt32 (bytestream_get_le32 pkt 20) > 0 then wrap32 (-fr.linesize)
        else fr.linesize)
      (if toInt32 (bytestream_get_le32 pkt 20) > 0
          then toInt32 (bytestream_get_le32 pkt 20)
          else wrap32 (-toInt32 (bytestream_get_le32 pkt 20))).toNat
      hsize
      (if toInt32 (bytestream_get_le32 pkt 20) > 0 then
        wrap32 (((if toInt32 (bytestream_get_le32 pkt 20) > 0
          then toInt32 (bytestream_get_le32 pkt 20)
          else wrap32 (-toInt32 (bytestream_get_le32 pkt 20))) - 1) * fr.linesize)
        else 0)
      fr.data = r)
    (hub : r.ub = none) :
    decode_picture host env pkt hsize =
      { out := Outcome.returned (pkt.length : Int),
        env :=
          { avctx :=
              { width := toInt32 (bytestream_get_le32 pkt 16),
                height := if toInt32 (bytestream_get_le32 pkt 20) > 0
                  then toInt32 (bytestream_get_le32 pkt 20)
                  else wrap32 (-toInt32 (bytestream_get_le32 pkt 20)),
                pix_fmt := AVPixelFormat.AV_PIX_FMT_BGR24 },
            p := { data := r.data, linesize := fr.linesize,
                   pict_type := AVPictureType.AV_PICTURE_TYPE_I, key_frame := 1 },
            got_frame := 1 },
        log := [],
        reads := [(16, 4), (20, 4), (24, 2)] ++ r.reads,
        requests :=
          [{ width := toInt32 (bytestream_get_le32 pkt 16),
             height := if toInt32 (bytestream_get_le32 pkt 20) > 0
               then toInt32 (bytestream_get_le32 pkt 20)
               else wrap32 (-toInt32 (bytestream_get_le32 pkt 20)),
             pix_fmt := AVPixelFormat.AV_PIX_FMT_BGR24 }],
        writes := r.writes } := by
  have c1 : ¬ (pkt.length < 20) := by omega
  have c2 : ¬ (pkt.length < 24) := by omega
  have c3 : ¬ (pkt.length < 26) := by omega
  have c4 : ¬ (ret < 0) := by omega
  unfold decode_picture
  simp only [c1, c2, c3, if_false, hgrant, c4, reduceCtorEq, hloop, hub]

/-- Lines 103-161 return the input length and set `*got_frame` when the
geometry lies in the input, the host grants a plane that holds the `rows` lines
of `L` bytes (`rows` being the height stored in the context) and is addressable
with `int` offsets, the row stride is at most `L`, and the input holds `rows`
source rows from offset `hsize`. -/
theorem decode_picture_returns (host : Host) (env : Env) (pkt : List Nat) (hsize : Nat)
    (h26 : 26 ≤ pkt.length) (rows L n : Nat) (ret : Int) (fr : AVFrame)
    (hrows : rows = (if toInt32 (bytestream_get_le32 pkt 20) > 0
        then toInt32 (bytestream_get_le32 pkt 20)
        else wrap32 (-toInt32 (bytestream_get_le32 pkt 20))).toNat)
    (hn : n = row_stride (toInt32 (bytestream_get_le32 pkt 16)) (bytestream_get_le16 pkt 24))
    (hgrant : host
      { width := toInt32 (bytestream_get_le32 pkt 16),
        height := if toInt32 (bytestream_get_le32 pkt 20) > 0
          then toInt32 (bytestream_get_le32 pkt 20)
          else wrap32 (-toInt32 (bytestream_get_le32 pkt 20)),
        pix_fmt := AVPixelFormat.AV_PIX_FMT_BGR24 } env.p = (ret, fr))
    (hret : 0 ≤ ret) (hL : fr.linesize = (L : Int)) (hnL : n ≤ L)
    (hplane : rows * L ≤ fr.data.length) (hint : rows * L < 2147483648)
    (hsrc : hsize + rows * n ≤ pkt.length) :
    (decode_picture host env pkt hsize).out = Outcome.returned (pkt.length : Int) ∧
    (decode_picture host env pkt hsize).env.got_frame = 1 := by
  by_cases hpos : toInt32 (bytestream_get_le32 pkt 20) > 0
  · simp only [hpos, if_true] at hrows
    have hH : toInt32 (bytestream_get_le32 pkt 20) = (rows : Int) := by omega
    have hrpos : 0 < rows := by omega
    have hle : L ≤ rows * L := Nat.le_mul_of_pos_left L hrpos
    have hptr : wrap32 (((rows : Int) - 1) * (L : Int)) = (rows : Int) * L - L := by
      have e : ((rows : Int) - 1) * (L : Int) = (rows : Int) * L - L := by ring
      have hc : ((rows * L : Nat) : Int) = (rows : Int) * L := by push_cast; rfl
      rw [e]
      exact wrap32_of_range _ (by omega) (by omega)
    have hls : wrap32 (-(L : Int)) = -(L : Int) := wrap32_of_range _ (by omega) (by omega)
    have hHpos : (rows : Int) > 0 := by omega
    obtain ⟨l1, -⟩ := row_loop_backward pkt n L hnL rows hsize fr.data hsrc hplane
    have hrun := decode_picture_granted host env pkt hsize h26 ret fr hret hgrant
      (row_loop pkt n (-(L : Int)) rows hsize ((rows : Int) * L - L) fr.data)
      (by simp only [hH, hHpos, if_true, hL, hptr, hls, Int.toNat_ofNat, ← hn])
      l1
    rw [hrun]
    exact ⟨rfl, rfl⟩
  · simp only [hpos, if_false] at hrows
    obtain ⟨l1, -⟩ := row_loop_forward pkt n L hnL rows hsize 0 fr.data hsrc (by omega)
    have hrun := decode_picture_granted host env pkt hsize h26 ret fr hret hgrant
      (row_loop pkt n (L : Int) rows hsize ((0 : Nat) : Int) fr.data)
      (by simp only [hpos, if_false, hL, ← hrows, ← hn, Nat.cast_zero])
      l1
    rw [hrun]
    exact ⟨rfl, rfl⟩

/-- The whole decode when the checks pass, the geometry lies in the input, the
host grants a frame and the row loop stays defined. -/
theorem mpff_decode_frame_granted (host : Host) (env : Env) (pkt : List Nat) (s : Sizes)
    (hs : header_checks env pkt = Except.ok s)
    (h26 : 26 ≤ pkt.length) (ret : Int) (fr : AVFrame) (hret : 0 ≤ ret)
    (hgrant : host
      { width := toInt32 (bytestream_get_le32 pkt 16),
        height := if toInt32 (bytestream_get_le32 pkt 20) > 0
          then toInt32 (bytestream_get_le32 pkt 20)
          else wrap32 (-toInt32 (bytestream_get_le32 pkt 20)),
        pix_fmt := AVPixelFormat.AV_PIX_FMT_BGR24 } env.p = (ret, fr))
    (r : RowLoop)
    (hloop : row_loop pkt
      (row_stride (toInt32 (bytestream_get_le32 pkt 16)) (bytestream_get_le16 pkt 24))
      (if toInt32 (bytestream_get_le32 pkt 20) > 0 then wrap32 (-fr.linesize)
        else fr.linesize)
      (if toInt32 (bytestream_get_le32 pkt 20) > 0
          then toInt32 (bytestream_get_le32 pkt 20)
          else wrap32 (-toInt32 (bytestream_get_le32 pkt 20))).toNat
      (bytestream_get_le32 pkt 8)
      (if toInt32 (bytestream_get_le32 pkt 20) > 0 then
        wrap32 (((if toInt32 (bytestream_get_le32 pkt 20) > 0
          then toInt32 (bytestream_get_le32 pkt 20)
          else wrap32 (-toInt32 (bytestream_get_le32 pkt 20))) - 1) * fr.linesize)
        else 0)
      fr.data = r)
    (hub : r.ub = none) :
    mpff_decode_frame host env pkt =
      { out := Outcome.returned (pkt.length : Int),
        env :=
          { avctx :=
              { width := toInt32 (bytestream_get_le32 pkt 16),
                height := if toInt32 (bytestream_get_le32 pkt 20) > 0
                  then toInt32 (bytestream_get_le32 pkt 20)
                  else wrap32 (-toInt32 (bytestream_get_le32 pkt 20)),
                pix_fmt := AVPixelFormat.AV_PIX_FMT_BGR24 },
            p := { data := r.data, linesize := fr.linesize,
                   pict_type := AVPictureType.AV_PICTURE_TYPE_I, key_frame := 1 },
            got_frame := 1 },
        log := s.log,
        reads := [(0, 1), (1, 1), (2, 1), (3, 1), (4, 4), (8, 4), (12, 4), (16, 4), (20, 4),
          (24, 2)] ++ r.reads,
        requests :=
          [{ width := toInt32 (bytestream_get_le32 pkt 16),
             height := if toInt32 (bytestream_get_le32 pkt 20) > 0
               then toInt32 (bytestream_get_le32 pkt 20)
               else wrap32 (-toInt32 (bytestream_get_le32 pkt 20)),
             pix_fmt := AVPixelFormat.AV_PIX_FMT_BGR24 }],
        writes := r.writes } := by
  obtain ⟨-, hhs, -, -, -, -⟩ := header_checks_ok env pkt s hs
  have hrun := decode_picture_granted host env pkt (bytestream_get_le32 pkt 8) h26 ret fr
    hret hgrant r hloop hub
  simp only [mpff_decode_frame, hs, hhs, hrun, List.append_nil, reads_to_hsize,
    List.cons_append, List.nil_append]

theorem rows_eq_of_getElem (data pkt : List Nat) (a b n : Nat)
    (h : ∀ c, c < n → data[a + c]? = pkt[b + c]?) :
    (data.drop a).take n = (pkt.drop b).take n := by
  apply List.ext_getElem?
  intro c
  rw [List.getElem?_take, List.getElem?_take, List.getElem?_drop, List.getElem?_drop]
  split_ifs with hc
  · exact h c hc
  · rfl

/-- C7: let an input pass the checks of lines 52-99 and hold its geometry, with
raw height `+H`, `H > 0`, and row stride `n`; let the host grant a plane of at
least `H` lines of `L >= n` bytes, addressable with `int` offsets; let the
input hold `H * n` bytes from offset `header_size`.  Then the decode returns
the input length, and for every `i < H` the first `n` bytes of destination
line `H - 1 - i` are the input bytes `[header_size + i*n, header_size + (i+1)*n)`:
the last line is file row 0 and line 0 is file row `H - 1`.  The source rows
are read at `header_size + i*n`, whatever the cursor was after the header. -/
theorem bottom_up_flips (host : Host) (env : Env) (pkt : List Nat) (H L n : Nat)
    (ret : Int) (fr : AVFrame)
    (hpass : ∃ s, header_checks env pkt = Except.ok s)
    (h26 : 26 ≤ pkt.length)
    (hH : toInt32 (bytestream_get_le32 pkt 20) = (H : Int)) (hpos : 0 < H)
    (hn : n = row_stride (toInt32 (bytestream_get_le32 pkt 16)) (bytestream_get_le16 pkt 24))
    (hgrant : host { width := toInt32 (bytestream_get_le32 pkt 16), height := (H : Int),
                     pix_fmt := AVPixelFormat.AV_PIX_FMT_BGR24 } env.p = (ret, fr))
    (hret : 0 ≤ ret) (hL : fr.linesize = (L : Int)) (hnL : n ≤ L)
    (hplane : H * L ≤ fr.data.length) (hint : H * L < 2147483648)
    (hsrc : bytestream_get_le32 pkt 8 + H * n ≤ pkt.length) :
    (mpff_decode_frame host env pkt).out = Outcome.returned (pkt.length : Int) ∧
    (∀ i, i < H →
      ((mpff_decode_frame host env pkt).env.p.data.drop ((H - 1 - i) * L)).take n
        = (pkt.drop (bytestream_get_le32 pkt 8 + i * n)).take n) ∧
    ((mpff_decode_frame host env pkt).env.p.data.drop ((H - 1) * L)).take n
      = (pkt.drop (bytestream_get_le32 pkt 8)).take n ∧
    ((mpff_decode_frame host env pkt).env.p.data).take n
      = (pkt.drop (bytestream_get_le32 pkt 8 + (H - 1) * n)).take n ∧
    (mpff_decode_frame host env pkt).reads
      = [(0, 1), (1, 1), (2, 1), (3, 1), (4, 4), (8, 4), (12, 4), (16, 4), (20, 4), (24, 2)]
        ++ (List.range H).map (fun i => (bytestream_get_le32 pkt 8 + i * n, n)) := by
  obtain ⟨s, hs⟩ := hpass
  have hHpos : (H : Int) > 0 := by omega
  have hle : L ≤ H * L := Nat.le_mul_of_pos_left L hpos
  have hptr : wrap32 (((H : Int) - 1) * (L : Int)) = (H : Int) * L - L := by
    have e : ((H : Int) - 1) * (L : Int) = (H : Int) * L - L := by ring
    have hc : ((H * L : Nat) : Int) = (H : Int) * L := by push_cast; rfl
    rw [e]
    exact wrap32_of_range _ (by omega) (by omega)
  have hls : wrap32 (-(L : Int)) = -(L : Int) := wrap32_of_range _ (by omega) (by omega)
  obtain ⟨l1, l2, l3, l4, l5, l6⟩ := row_loop_backward pkt n L hnL H
    (bytestream_get_le32 pkt 8) fr.data hsrc hplane
  have hrun := mpff_decode_frame_granted host env pkt s hs h26 ret fr hret
    (by simp only [hH, hHpos, if_true]; exact hgrant)
    (row_loop pkt n (-(L : Int)) H (bytestream_get_le32 pkt 8) ((H : Int) * L - L) fr.data)
    (by simp only [hH, hHpos, if_true, hL, hptr, hls, Int.toNat_ofNat, ← hn])
    l1
  rw [hrun]
  have hrows : ∀ i, i < H →
      ((row_loop pkt n (-(L : Int)) H (bytestream_get_le32 pkt 8) ((H : Int) * L - L)
          fr.data).data.drop ((H - 1 - i) * L)).take n
        = (pkt.drop (bytestream_get_le32 pkt 8 + i * n)).take n := fun i hi =>
    rows_eq_of_getElem _ _ _ _ _ (l3 i hi)
  refine ⟨rfl, hrows, ?_, ?_, ?_⟩
  · have h0 := hrows 0 hpos
    simpa using h0
  · have h1 := hrows (H - 1) (by omega)
    have e : H - 1 - (H - 1) = 0 := by omega
    simpa [e] using h1
  · simp only [l5]

/-- Witness of C7: the two rows of `sample_bottom_up` land in a plane of two
8-byte lines in reverse order. -/
theorem bottom_up_flips_witness :
    (mpff_decode_frame (grant 8) env0 sample_bottom_up).out = Outcome.returned 34 ∧
    ((mpff_decode_frame (grant 8) env0 sample_bottom_up).env.p.data.drop 8).take 4
      = [1, 2, 3, 4] ∧
    ((mpff_decode_frame (grant 8) env0 sample_bottom_up).env.p.data).take 4
      = [5, 6, 7, 8] :=
  have h := bottom_up_flips (grant 8) env0 sample_bottom_up 2 8 4 0
    { data := List.replicate 16 0, linesize := 8,
      pict_type := AVPictureType.AV_PICTURE_TYPE_NONE, key_frame := 0 }
    ⟨{ fsize := 34, hsize := 26, ihsize := 14, log := [] }, rfl⟩
    (by decide) (by decide) (by decide) (by decide) rfl (by decide) rfl (by decide)
    (by decide) (by decide) (by decide)
  ⟨h.1, h.2.2.1, h.2.2.2.1⟩

theorem toInt32_range (v : Nat) : -2147483648 ≤ toInt32 v ∧ toInt32 v < 2147483648 := by
  unfold toInt32
  split_ifs <;> omega

/-- C8: let an input pass the checks of lines 52-99 and hold its geometry, with
raw height `-H`, `H >= 0`, and row stride `n`; let the host grant a plane of at
least `H` lines of `L >= n` bytes; let the input hold `H * n` bytes from offset
`header_size`.  Then the decode returns the input length and for every `i < H`
the first `n` bytes of destination line `i` are the input bytes
`[header_size + i*n, header_size + (i+1)*n)`.  With raw height 0 nothing is
written and the plane is as the host granted it. -/
theorem top_down_keeps_order (host : Host) (env : Env) (pkt : List Nat) (H L n : Nat)
    (ret : Int) (fr : AVFrame)
    (hpass : ∃ s, header_checks env pkt = Except.ok s)
    (h26 : 26 ≤ pkt.length) (h31 : pkt.length < 2147483648)
    (hH : toInt32 (bytestream_get_le32 pkt 20) = -(H : Int))
    (hn : n = row_stride (toInt32 (bytestream_get_le32 pkt 16)) (bytestream_get_le16 pkt 24))
    (hgrant : host { width := toInt32 (bytestream_get_le32 pkt 16),
                     height := wrap32 (H : Int),
                     pix_fmt := AVPixelFormat.AV_PIX_FMT_BGR24 } env.p = (ret, fr))
    (hret : 0 ≤ ret) (hL : fr.linesize = (L : Int)) (hnL : n ≤ L)
    (hplane : H * L ≤ fr.data.length)
    (hsrc : bytestream_get_le32 pkt 8 + H * n ≤ pkt.length) :
    (mpff_decode_frame host env pkt).out = Outcome.returned (pkt.length : Int) ∧
    (∀ i, i < H →
      ((mpff_decode_frame host env pkt).env.p.data.drop (i * L)).take n
        = (pkt.drop (bytestream_get_le32 pkt 8 + i * n)).take n) ∧
    (H = 0 → (mpff_decode_frame host env pkt).writes = [] ∧
      (mpff_decode_frame host env pkt).env.p.data = fr.data) := by
  obtain ⟨s, hs⟩ := hpass
  have hHneg : ¬ (-(H : Int) > 0) := by omega
  have hrange := toInt32_range (bytestream_get_le32 pkt 20)
  by_cases hbig : H < 2147483648
  · have hw : wrap32 (H : Int) = (H : Int) := wrap32_of_range _ (by omega) (by omega)
    obtain ⟨l1, l2, l3, l4, l5, l6⟩ := row_loop_forward pkt n L hnL H
      (bytestream_get_le32 pkt 8) 0 fr.data hsrc (by omega)
    have hrun := mpff_decode_frame_granted host env pkt s hs h26 ret fr hret
      (by simp only [hH, hHneg, if_false, neg_neg]; exact hgrant)
      (row_loop pkt n (L : Int) H (bytestream_get_le32 pkt 8) ((0 : Nat) : Int) fr.data)
      (by simp only [hH, hHneg, if_false, neg_neg, hw, hL, Int.toNat_ofNat, ← hn,
            Nat.cast_zero])
      l1
    rw [hrun]
    refine ⟨rfl, ?_, ?_⟩
    · intro i hi
      apply rows_eq_of_getElem
      intro c hc
      have h := l3 i hi c hc
      simpa using h
    · intro h0
      subst h0
      simp [row_loop]
  · have hH31 : H = 2147483648 := by omega
    have hn0 : n = 0 := by
      subst hH31
      omega
    have hw : wrap32 (H : Int) = -2147483648 := by
      subst hH31
      unfold wrap32 toInt32 toU32
      split_ifs <;> omega
    have hrun := mpff_decode_frame_granted host env pkt s hs h26 ret fr hret
      (by simp only [hH, hHneg, if_false, neg_neg]; exact hgrant)
      { ub := none, data := fr.data, reads := [], writes := [] }
      (by simp [hH, hHneg, hw, row_loop])
      rfl
    rw [hrun]
    refine ⟨rfl, ?_, ?_⟩
    · intro i _
      rw [hn0, List.take_zero, List.take_zero]
    · intro _
      exact ⟨rfl, rfl⟩

/-- Witness of C8: the two rows of `sample_top_down` land in a plane of two
8-byte lines in file order. -/
theorem top_down_keeps_order_witness :
    (mpff_decode_frame (grant 8) env0 sample_top_down).out = Outcome.returned 34 ∧
    ((mpff_decode_frame (grant 8) env0 sample_top_down).env.p.data.drop (0 * 8)).take 4
      = (sample_top_down.drop (bytestream_get_le32 sample_top_down 8 + 0 * 4)).take 4 ∧
    ((mpff_decode_frame (grant 8) env0 sample_top_down).env.p.data.drop (1 * 8)).take 4
      = (sample_top_down.drop (bytestream_get_le32 sample_top_down 8 + 1 * 4)).take 4 :=
  have h := top_down_keeps_order (grant 8) env0 sample_top_down 2 8 4 0
    { data := List.replicate 16 0, linesize := 8,
      pict_type := AVPictureType.AV_PICTURE_TYPE_NONE, key_frame := 0 }
    ⟨{ fsize := 34, hsize := 26, ihsize := 14, log := [] }, rfl⟩
    (by decide) (by decide) (by decide) (by decide) rfl (by decide) rfl (by decide)
    (by decide) (by decide)
  ⟨h.1, h.2.1 0 (by decide), h.2.1 1 (by decide)⟩

theorem clamp_fsize_eq_min (len fsz : Nat) (h : len < 4294967296) :
    clamp_fsize (len : Int) fsz = min fsz len := by
  unfold clamp_fsize
  rw [toU32_natCast len h]
  split_ifs <;> omega

theorem fixup_fsize_eq (len ihsize fsize : Nat) (h2 : 2 ≤ len) (h : len < 4294967296)
    (hih : ihsize + 12 < 4294967296) :
    fixup_fsize (len : Int) ihsize fsize
      = if fsize = 12 ∨ fsize = ihsize + 12 then len - 2 else fsize := by
  unfold fixup_fsize
  rw [toU32_natCast_sub_two len h2 h, Nat.mod_eq_of_lt hih]

/-- C4: on an input with the magic and `info_header_size + 12 <= header_size`,
when the file size clamped to the input length is 12 or `info_header_size + 12`,
the file size line 93 compares is `input length - 2`: the checks pass with that
value when it exceeds `header_size` and reject with the diagnostic naming it
otherwise.  In particular an input whose `file_size` field is 12 passes the
checks exactly when `input length - 2 > header_size`; its decode then returns
the input length and sets `*got_frame` as soon as the geometry and the source
rows lie in the input and the host grants a plane that holds the rows. -/
theorem fsize_fixup (host : Host) (env : Env) (pkt : List Nat)
    (h16 : 16 ≤ pkt.length) (h31 : pkt.length < 2147483648)
    (hmagic : pkt.take 4 = [77, 80, 70, 70])
    (hih : bytestream_get_le32 pkt 12 + 12 ≤ bytestream_get_le32 pkt 8) :
    ((min (bytestream_get_le32 pkt 4) pkt.length = 12 ∨
        min (bytestream_get_le32 pkt 4) pkt.length = bytestream_get_le32 pkt 12 + 12) →
      fixup_fsize (pkt.length : Int) (bytestream_get_le32 pkt 12)
          (clamp_fsize (pkt.length : Int) (bytestream_get_le32 pkt 4)) = pkt.length - 2 ∧
      (bytestream_get_le32 pkt 8 < pkt.length - 2 →
        ∃ log, header_checks env pkt = Except.ok
          { fsize := pkt.length - 2, hsize := bytestream_get_le32 pkt 8,
            ihsize := bytestream_get_le32 pkt 12, log := log }) ∧
      (pkt.length - 2 ≤ bytestream_get_le32 pkt 8 →
        (mpff_decode_frame host env pkt).rejected_with
          (LogMsg.declared_file_size_less (pkt.length - 2) (bytestream_get_le32 pkt 8)))) ∧
    (bytestream_get_le32 pkt 4 = 12 →
      ((∃ s, header_checks env pkt = Except.ok s)
        ↔ bytestream_get_le32 pkt 8 < pkt.length - 2) ∧
      (∀ (rows L n : Nat) (ret : Int) (fr : AVFrame),
        bytestream_get_le32 pkt 8 < pkt.length - 2 → 26 ≤ pkt.length →
        rows = (if toInt32 (bytestream_get_le32 pkt 20) > 0
          then toInt32 (bytestream_get_le32 pkt 20)
          else wrap32 (-toInt32 (bytestream_get_le32 pkt 20))).toNat →
        n = row_stride (toInt32 (bytestream_get_le32 pkt 16)) (bytestream_get_le16 pkt 24) →
        host
          { width := toInt32 (bytestream_get_le32 pkt 16),
            height := if toInt32 (bytestream_get_le32 pkt 20) > 0
              then toInt32 (bytestream_get_le32 pkt 20)
              else wrap32 (-toInt32 (bytestream_get_le32 pkt 20)),
            pix_fmt := AVPixelFormat.AV_PIX_FMT_BGR24 } env.p = (ret, fr) →
        0 ≤ ret → fr.linesize = (L : Int) → n ≤ L →
        rows * L ≤ fr.data.length → rows * L < 2147483648 →
        bytestream_get_le32 pkt 8 + rows * n ≤ pkt.length →
        (mpff_decode_frame host env pkt).out = Outcome.returned (pkt.length : Int) ∧
        (mpff_decode_frame host env pkt).env.got_frame = 1)) := by
  have hchk := header_checks_of_magic env pkt h16 h31 hmagic
  have hnot : ¬ (bytestream_get_le32 pkt 8 < bytestream_get_le32 pkt 12 + 12) := by omega
  have hhs := bytestream_get_le32_lt pkt 8
  simp only [hnot, if_false] at hchk
  constructor
  · intro hfix
    simp only [hfix, if_true] at hchk
    refine ⟨?_, ?_, ?_⟩
    · rw [clamp_fsize_eq_min _ _ (by omega), fixup_fsize_eq _ _ _ (by omega) (by omega)
        (by omega), if_pos hfix]
    · intro hgt
      have hgt2 : ¬ (pkt.length - 2 ≤ bytestream_get_le32 pkt 8) := by omega
      rw [if_neg hgt2] at hchk
      exact ⟨_, hchk⟩
    · intro hle
      rw [if_pos hle] at hchk
      simp [mpff_decode_frame, hchk, Run.rejected_with, Run.reject]
  · intro h12
    have hmin : min (bytestream_get_le32 pkt 4) pkt.length = 12 := by omega
    simp only [hmin, true_or, if_true] at hchk
    constructor
    · constructor
      · rintro ⟨s, hs⟩
        by_contra hle
        rw [if_pos (by omega)] at hchk
        rw [hchk] at hs
        exact absurd hs (by simp)
      · intro hgt
        rw [if_neg (by omega)] at hchk
        exact ⟨_, hchk⟩
    · intro rows L n ret fr hgt h26 hrows hn hgrant hret hL hnL hplane hint hsrc
      rw [if_neg (by omega)] at hchk
      simp only [mpff_decode_frame, hchk]
      exact decode_picture_returns host env pkt _ h26 rows L n ret fr hrows hn hgrant hret
        hL hnL hplane hint hsrc

/-- Witness of C4: a 34-byte input whose `file_size` field is 12, with
`header_size = 26`: the checks pass with the file size `32`, and the decode
into a plane of two 8-byte lines returns 34. -/
theorem fsize_fixup_witness :
    (bytestream_get_le32 (mk_header 12 26 14 1 2 24 ++ [1, 2, 3, 4, 5, 6, 7, 8]) 12 + 12
      ≤ bytestream_get_le32 (mk_header 12 26 14 1 2 24 ++ [1, 2, 3, 4, 5, 6, 7, 8]) 8) ∧
    ((∃ s, header_checks env0 (mk_header 12 26 14 1 2 24 ++ [1, 2, 3, 4, 5, 6, 7, 8])
        = Except.ok s)
      ↔ bytestream_get_le32 (mk_header 12 26 14 1 2 24 ++ [1, 2, 3, 4, 5, 6, 7, 8]) 8
        < (mk_header 12 26 14 1 2 24 ++ [1, 2, 3, 4, 5, 6, 7, 8]).length - 2) ∧
    (mpff_decode_frame (grant 8) env0
      (mk_header 12 26 14 1 2 24 ++ [1, 2, 3, 4, 5, 6, 7, 8])).out = Outcome.returned 34 :=
  have h := (fsize_fixup (grant 8) env0
    (mk_header 12 26 14 1 2 24 ++ [1, 2, 3, 4, 5, 6, 7, 8])
    (by decide) (by decide) (by decide) (by decide)).2 (by decide)
  ⟨by decide, h.1,
   (h.2 2 8 4 0
      { data := List.replicate 16 0, linesize := 8,
        pict_type := AVPictureType.AV_PICTURE_TYPE_NONE, key_frame := 0 }
      (by decide) (by decide) (by decide) (by decide) rfl (by decide) rfl (by decide)
      (by decide) (by decide) (by decide)).1⟩

/-- C5: on an input with the magic and `info_header_size + 12 <= header_size`,
let `eff` be the declared file size clamped to the input length and then
replaced by `input length - 2` when it is 12 or `info_header_size + 12`.  The
decode is rejected with `AVERROR_INVALIDDATA` after the diagnostic "Declared
file size is less than header size" if and only if `eff <= header_size`; the
diagnostic then names `eff` and `header_size`, and the host is not asked for a
buffer. -/
theorem header_larger_than_file_iff (host : Host) (env : Env) (pkt : List Nat) (eff : Nat)
    (h16 : 16 ≤ pkt.length) (h31 : pkt.length < 2147483648)
    (hmagic : pkt.take 4 = [77, 80, 70, 70])
    (hih : bytestream_get_le32 pkt 12 + 12 ≤ bytestream_get_le32 pkt 8)
    (heff : eff = if min (bytestream_get_le32 pkt 4) pkt.length = 12 ∨
        min (bytestream_get_le32 pkt 4) pkt.length = bytestream_get_le32 pkt 12 + 12
      then pkt.length - 2 else min (bytestream_get_le32 pkt 4) pkt.length) :
    ((∃ f h, (mpff_decode_frame host env pkt).rejected_with
        (LogMsg.declared_file_size_less f h)) ↔ eff ≤ bytestream_get_le32 pkt 8) ∧
    (eff ≤ bytestream_get_le32 pkt 8 →
      (mpff_decode_frame host env pkt).rejected_with
        (LogMsg.declared_file_size_less eff (bytestream_get_le32 pkt 8)) ∧
      (mpff_decode_frame host env pkt).requests = []) ∧
    eff = fixup_fsize (pkt.length : Int) (bytestream_get_le32 pkt 12)
      (clamp_fsize (pkt.length : Int) (bytestream_get_le32 pkt 4)) := by
  have hchk := header_checks_of_magic env pkt h16 h31 hmagic
  have hnot : ¬ (bytestream_get_le32 pkt 8 < bytestream_get_le32 pkt 12 + 12) := by omega
  have hhs := bytestream_get_le32_lt pkt 8
  simp only [hnot, if_false, ← heff] at hchk
  have hyes : eff ≤ bytestream_get_le32 pkt 8 →
      (mpff_decode_frame host env pkt).rejected_with
        (LogMsg.declared_file_size_less eff (bytestream_get_le32 pkt 8)) ∧
      (mpff_decode_frame host env pkt).requests = [] := by
    intro hle
    rw [if_pos hle] at hchk
    simp [mpff_decode_frame, hchk, Run.rejected_with, Run.reject]
  refine ⟨⟨?_, fun hle => ⟨_, _, (hyes hle).1⟩⟩, hyes, ?_⟩
  · rintro ⟨f, h, -, hlast⟩
    by_contra hgt
    rw [if_neg hgt] at hchk
    simp only [mpff_decode_frame, hchk, decode_picture_log, List.append_nil] at hlast
    split_ifs at hlast <;> simp at hlast
  · rw [clamp_fsize_eq_min _ _ (by omega), fixup_fsize_eq _ _ _ (by omega) (by omega)
      (by omega)]
    exact heff

/-- Witness of C5: a 30-byte input declaring `file_size = 20` under
`header_size = 26` is rejected with the diagnostic naming 20 and 26. -/
theorem header_larger_than_file_iff_witness :
    (bytestream_get_le32 (mk_header 20 26 14 1 1 24 ++ [1, 2, 3, 4]) 12 + 12
      ≤ bytestream_get_le32 (mk_header 20 26 14 1 1 24 ++ [1, 2, 3, 4]) 8) ∧
    (20 ≤ bytestream_get_le32 (mk_header 20 26 14 1 1 24 ++ [1, 2, 3, 4]) 8 →
      (mpff_decode_frame (grant 4) env0
        (mk_header 20 26 14 1 1 24 ++ [1, 2, 3, 4])).rejected_with
          (LogMsg.declared_file_size_less 20
            (bytestream_get_le32 (mk_header 20 26 14 1 1 24 ++ [1, 2, 3, 4]) 8)) ∧
      (mpff_decode_frame (grant 4) env0
        (mk_header 20 26 14 1 1 24 ++ [1, 2, 3, 4])).requests = []) :=
  ⟨by decide,
   (header_larger_than_file_iff (grant 4) env0 (mk_header 20 26 14 1 1 24 ++ [1, 2, 3, 4]) 20
      (by decide) (by decide) (by decide) (by decide) (by decide)).2.1⟩

/-! ### Shared lemmas: two inputs that differ in the `file_size` field only -/

theorem bytestream_get_byte_congr (p q : List Nat) (i : Nat) (h : q[i]? = p[i]?) :
    bytestream_get_byte q i = bytestream_get_byte p i := by
  unfold bytestream_get_byte
  rw [List.getD_eq_getElem?_getD, List.getD_eq_getElem?_getD, h]

theorem bytestream_get_le32_congr (p q : List Nat) (pos : Nat)
    (h : ∀ i, pos ≤ i → q[i]? = p[i]?) :
    bytestream_get_le32 q pos = bytestream_get_le32 p pos := by
  unfold bytestream_get_le32
  rw [bytestream_get_byte_congr p q pos (h _ (by omega)),
    bytestream_get_byte_congr p q (pos + 1) (h _ (by omega)),
    bytestream_get_byte_congr p q (pos + 2) (h _ (by omega)),
    bytestream_get_byte_congr p q (pos + 3) (h _ (by omega))]

theorem bytestream_get_le16_congr (p q : List Nat) (pos : Nat)
    (h : ∀ i, pos ≤ i → q[i]? = p[i]?) :
    bytestream_get_le16 q pos = bytestream_get_le16 p pos := by
  unfold bytestream_get_le16
  rw [bytestream_get_byte_congr p q pos (h _ (by omega)),
    bytestream_get_byte_congr p q (pos + 1) (h _ (by omega))]

theorem row_loop_congr (p q : List Nat) (n : Nat) (linesize : Int) (k : Nat)
    (hlen : q.length = p.length) (h : ∀ i, k ≤ i → q[i]? = p[i]?) :
    ∀ (rows buf : Nat) (ptr : Int) (data : List Nat), k ≤ buf →
      row_loop q n linesize rows buf ptr data = row_loop p n linesize rows buf ptr data := by
  intro rows
  induction rows with
  | zero =>
    intro buf ptr data _
    simp [row_loop]
  | succ r ih =>
    intro buf ptr data hbuf
    have hrow : (q.drop buf).take n = (p.drop buf).take n := by
      apply List.ext_getElem?
      intro c
      rw [List.getElem?_take, List.getElem?_take, List.getElem?_drop, List.getElem?_drop,
        h (buf + c) (by omega)]
    simp only [row_loop, hlen, hrow, ih (buf + n) _ _ (by omega)]

/-- Lines 103-161 depend on the input through its length and its bytes from
offset 8 on. -/
theorem decode_picture_congr (host : Host) (env : Env) (p q : List Nat) (hsize : Nat)
    (hlen : q.length = p.length) (h : ∀ i, 8 ≤ i → q[i]? = p[i]?) (h8 : 8 ≤ hsize) :
    decode_picture host env q hsize = decode_picture host env p hsize := by
  have e16 := bytestream_get_le32_congr p q 16 (fun i hi => h i (by omega))
  have e20 := bytestream_get_le32_congr p q 20 (fun i hi => h i (by omega))
  have e24 := bytestream_get_le16_congr p q 24 (fun i hi => h i (by omega))
  unfold decode_picture
  simp only [hlen, e16, e20, e24, row_loop_congr p q _ _ 8 hlen h _ hsize _ _ h8]

theorem rewritten_length (pkt : List Nat) (v : Nat) (h8 : 8 ≤ pkt.length) :
    (pkt.take 4 ++ le32_bytes v ++ pkt.drop 8).length = pkt.length := by
  simp only [List.length_append, List.length_take, List.length_drop, le32_bytes,
    List.length_cons, List.length_nil]
  omega

theorem rewritten_low (pkt : List Nat) (v : Nat) (h8 : 8 ≤ pkt.length) (i : Nat)
    (hi : i < 4) : (pkt.take 4 ++ le32_bytes v ++ pkt.drop 8)[i]? = pkt[i]? := by
  have hl : (pkt.take 4).length = 4 := by rw [List.length_take]; omega
  rw [List.append_assoc, List.getElem?_append_left (by omega), List.getElem?_take_of_lt hi]

theorem rewritten_high (pkt : List Nat) (v : Nat) (h8 : 8 ≤ pkt.length) (i : Nat)
    (hi : 8 ≤ i) : (pkt.take 4 ++ le32_bytes v ++ pkt.drop 8)[i]? = pkt[i]? := by
  have hl : (pkt.take 4 ++ le32_bytes v).length = 8 := by
    simp only [List.length_append, List.length_take, le32_bytes, List.length_cons,
      List.length_nil]
    omega
  rw [List.getElem?_append_right (by omega), hl, List.getElem?_drop]
  congr 1
  omega

theorem rewritten_field (pkt : List Nat) (v : Nat) (h8 : 8 ≤ pkt.length)
    (hv : v < 4294967296) :
    bytestream_get_le32 (pkt.take 4 ++ le32_bytes v ++ pkt.drop 8) 4 = v := by
  have hl : (pkt.take 4).length = 4 := by rw [List.length_take]; omega
  have hb : ∀ k, k < 4 →
      (pkt.take 4 ++ le32_bytes v ++ pkt.drop 8)[4 + k]? = (le32_bytes v)[k]? := by
    intro k hk
    rw [List.append_assoc, List.getElem?_append_right (by omega), hl,
      List.getElem?_append_left (by simp [le32_bytes]; omega)]
    congr 1
    omega
  have h0 : (pkt.take 4 ++ le32_bytes v ++ pkt.drop 8)[4]? = (le32_bytes v)[0]? :=
    hb 0 (by omega)
  have h1 := hb 1 (by omega)
  have h2 := hb 2 (by omega)
  have h3 := hb 3 (by omega)
  simp only [le32_bytes, List.getElem?_cons_zero, List.getElem?_cons_succ] at h0 h1 h2 h3
  simp only [bytestream_get_le32, bytestream_get_byte, List.getD_eq_getElem?_getD, le32_bytes,
    h0, h1, h2, h3, Option.getD_some]
  omega
/-- C6: when the declared `file_size` exceeds the input length, the decode has
the same outcome, leaves the same objects (context, frame with its pixel rows,
`*got_frame`), asks the host for the same buffer and makes the same reads and
writes as on the same input with the `file_size` field rewritten to the input
length; the only difference is the diagnostic "not enough data", logged first
when the field is read at all. -/
theorem fsize_clamp_soft (host : Host) (env : Env) (pkt : List Nat)
    (h8 : 8 ≤ pkt.length) (h31 : pkt.length < 2147483648)
    (hbig : pkt.length < bytestream_get_le32 pkt 4) :
    bytestream_get_le32 (pkt.take 4 ++ le32_bytes pkt.length ++ pkt.drop 8) 4 = pkt.length ∧
    (mpff_decode_frame host env pkt).out
      = (mpff_decode_frame host env (pkt.take 4 ++ le32_bytes pkt.length ++ pkt.drop 8)).out ∧
    (mpff_decode_frame host env pkt).env
      = (mpff_decode_frame host env (pkt.take 4 ++ le32_bytes pkt.length ++ pkt.drop 8)).env ∧
    (mpff_decode_frame host env pkt).requests
      = (mpff_decode_frame host env
          (pkt.take 4 ++ le32_bytes pkt.length ++ pkt.drop 8)).requests ∧
    (mpff_decode_frame host env pkt).reads
      = (mpff_decode_frame host env (pkt.take 4 ++ le32_bytes pkt.length ++ pkt.drop 8)).reads ∧
    (mpff_decode_frame host env pkt).writes
      = (mpff_decode_frame host env
          (pkt.take 4 ++ le32_bytes pkt.length ++ pkt.drop 8)).writes ∧
    ((mpff_decode_frame host env pkt).log
        = (mpff_decode_frame host env
            (pkt.take 4 ++ le32_bytes pkt.length ++ pkt.drop 8)).log ∨
      (mpff_decode_frame host env pkt).log
        = LogMsg.not_enough_data pkt.length (bytestream_get_le32 pkt 4) ::
          (mpff_decode_frame host env
            (pkt.take 4 ++ le32_bytes pkt.length ++ pkt.drop 8)).log) := by
  have hlen := rewritten_length pkt pkt.length h8
  have hlow := rewritten_low pkt pkt.length h8
  have hhigh := rewritten_high pkt pkt.length h8
  have hfield := rewritten_field pkt pkt.length h8 (by omega)
  generalize pkt.take 4 ++ le32_bytes pkt.length ++ pkt.drop 8 = q at hlen hlow hhigh hfield ⊢
  have b0 := bytestream_get_byte_congr pkt q 0 (hlow 0 (by omega))
  have b1 := bytestream_get_byte_congr pkt q 1 (hlow 1 (by omega))
  have b2 := bytestream_get_byte_congr pkt q 2 (hlow 2 (by omega))
  have b3 := bytestream_get_byte_congr pkt q 3 (hlow 3 (by omega))
  have e8 := bytestream_get_le32_congr pkt q 8 (fun i hi => hhigh i (by omega))
  have e12 := bytestream_get_le32_congr pkt q 12 (fun i hi => hhigh i (by omega))
  have hu : toU32 (pkt.length : Int) = pkt.length := toU32_natCast _ (by omega)
  have hirr : ¬ (pkt.length < pkt.length) := lt_irrefl _
  refine ⟨hfield, ?_⟩
  have hq : header_checks env q = header_checks env q := rfl
  have hp : header_checks env pkt = header_checks env pkt := rfl
  conv at hq => rhs; simp only [header_checks, hlen, b0, b1, b2, b3, e8, e12, hfield, hu, hirr, clamp_fsize, if_false]
  conv at hp => rhs; simp only [header_checks, hu, hbig, clamp_fsize, if_true]
  by_cases c1 : ((pkt.length : Nat) : Int) < 12
  · rw [if_pos c1] at hq hp
    simp [mpff_decode_frame, hq, hp]
  rw [if_neg c1] at hq hp
  by_cases c2 : bytestream_get_byte pkt 0 ≠ 77
  · rw [if_pos c2] at hq hp
    simp [mpff_decode_frame, hq, hp]
  rw [if_neg c2] at hq hp
  by_cases c3 : bytestream_get_byte pkt 1 ≠ 80
  · rw [if_pos c3] at hq hp
    simp [mpff_decode_frame, hq, hp]
  rw [if_neg c3] at hq hp
  by_cases c4 : bytestream_get_byte pkt 2 ≠ 70
  · rw [if_pos c4] at hq hp
    simp [mpff_decode_frame, hq, hp]
  rw [if_neg c4] at hq hp
  by_cases c5 : bytestream_get_byte pkt 3 ≠ 70
  · rw [if_pos c5] at hq hp
    simp [mpff_decode_frame, hq, hp]
  rw [if_neg c5] at hq hp
  by_cases c6 : pkt.length < 16
  · rw [if_pos c6] at hq hp
    simp [mpff_decode_frame, hq, hp, Run.stuck]
  rw [if_neg c6] at hq hp
  by_cases c7 : ((bytestream_get_le32 pkt 12 : Nat) : Int) + 12
      > ((bytestream_get_le32 pkt 8 : Nat) : Int)
  · rw [if_pos c7] at hq hp
    simp [mpff_decode_frame, hq, hp, Run.reject]
  rw [if_neg c7] at hq hp
  by_cases c8 : fixup_fsize (pkt.length : Int) (bytestream_get_le32 pkt 12) pkt.length
      ≤ bytestream_get_le32 pkt 8
  · rw [if_pos c8] at hq hp
    simp [mpff_decode_frame, hq, hp, Run.reject]
  rw [if_neg c8] at hq hp
  have hh8 : 8 ≤ bytestream_get_le32 pkt 8 := by omega
  simp [mpff_decode_frame, hq, hp, decode_picture_congr host env pkt q _ hlen hhigh hh8]

/-- Witness of C6: a 34-byte picture declaring `file_size = 100` decodes as
the same bytes declaring `file_size = 34` do, and returns 34. -/
theorem fsize_clamp_soft_witness :
    (mk_header 100 26 14 1 2 24 ++ [1, 2, 3, 4, 5, 6, 7, 8]).length
      < bytestream_get_le32 (mk_header 100 26 14 1 2 24 ++ [1, 2, 3, 4, 5, 6, 7, 8]) 4 ∧
    (mpff_decode_frame (grant 8) env0
        (mk_header 100 26 14 1 2 24 ++ [1, 2, 3, 4, 5, 6, 7, 8])).out
      = (mpff_decode_frame (grant 8) env0
          ((mk_header 100 26 14 1 2 24 ++ [1, 2, 3, 4, 5, 6, 7, 8]).take 4
            ++ le32_bytes (mk_header 100 26 14 1 2 24 ++ [1, 2, 3, 4, 5, 6, 7, 8]).length
            ++ (mk_header 100 26 14 1 2 24 ++ [1, 2, 3, 4, 5, 6, 7, 8]).drop 8)).out ∧
    (mpff_decode_frame (grant 8) env0
        (mk_header 100 26 14 1 2 24 ++ [1, 2, 3, 4, 5, 6, 7, 8])).out
      = Outcome.returned 34 :=
  ⟨by decide,
   (fsize_clamp_soft (grant 8) env0 (mk_header 100 26 14 1 2 24 ++ [1, 2, 3, 4, 5, 6, 7, 8])
      (by decide) (by decide) (by decide)).2.1,
   by decide⟩

/-- C10 fails on the code: `sample_truncated` passes the checks of lines
52-99 with `header_size = 26`, its one row of stride 4 needs 30 bytes and the
input has 28; `mpff_decode_frame` does not reject it: it asks the host for the
buffer, enters the row loop and its first `memcpy` reads the 4 bytes at offset
26, two of them past the end of the input. -/
theorem truncated_pixel_data_read_past_input :
    sample_truncated.length = 28 ∧
    header_checks env0 sample_truncated
      = Except.ok { fsize := 28, hsize := 26, ihsize := 14, log := [] } ∧
    toInt32 (bytestream_get_le32 sample_truncated 20) = 1 ∧
    row_stride (toInt32 (bytestream_get_le32 sample_truncated 16))
      (bytestream_get_le16 sample_truncated 24) = 4 ∧
    (mpff_decode_frame (grant 4) env0 sample_truncated).out
      = Outcome.undefined (Undefined.read_past_input 26 4) ∧
    (mpff_decode_frame (grant 4) env0 sample_truncated).requests
      = [{ width := 1, height := 1, pix_fmt := AVPixelFormat.AV_PIX_FMT_BGR24 }] ∧
    (mpff_decode_frame (grant 4) env0 sample_truncated).log = [] := by
  refine ⟨by decide, rfl, by decide, by decide, by decide, by decide, by decide⟩

/-! ### Shared lemmas: what the checks leave behind -/

/-- A run that ends inside the checks of lines 52-99 has not touched the
objects handed over, has not called the host and has written nothing. -/
theorem header_checks_error (env : Env) (pkt : List Nat) (r : Run)
    (h : header_checks env pkt = Except.error r) :
    r.env = env ∧ r.requests = [] ∧ r.writes = [] := by
  unfold header_checks at h
  simp only at h
  split_ifs at h
  all_goals
    injection h with h
    subst h
    simp only [Run.reject, Run.stuck, and_self]

/-- The only diagnostic a passed validation can have logged is "not enough
data". -/
theorem header_checks_ok_log (env : Env) (pkt : List Nat) (s : Sizes)
    (h : header_checks env pkt = Except.ok s) :
    s.log = [] ∨ s.log = [LogMsg.not_enough_data (pkt.length : Int)
      (bytestream_get_le32 pkt 4)] := by
  unfold header_checks at h
  simp only at h
  split_ifs at h
  all_goals
    simp only [Except.ok.injEq] at h
    subst h
    simp only [or_true, true_or]

/-- After a passed validation the pixel-data offset is at least 12 and below
the input length. -/
theorem header_checks_hsize_lt (env : Env) (pkt : List Nat) (s : Sizes)
    (h : header_checks env pkt = Except.ok s) (h31 : pkt.length < 2147483648) :
    12 ≤ s.hsize ∧ s.hsize < pkt.length := by
  obtain ⟨h16, -, hih, hle, hlt, hf⟩ := header_checks_ok env pkt s h
  have hu : toU32 (pkt.length : Int) = pkt.length := toU32_natCast _ (by omega)
  have hu2 : toU32 ((pkt.length : Int) - 2) = pkt.length - 2 :=
    toU32_natCast_sub_two _ (by omega) (by omega)
  have hfle : s.fsize ≤ pkt.length := by
    rw [hf]
    unfold fixup_fsize clamp_fsize
    rw [hu, hu2]
    split_ifs <;> omega
  omega

/-- The ways a run can end inside the checks of lines 52-99: one of the four
`return AVERROR_INVALIDDATA`, each after its own diagnostic, or the read of
`ihsize` past an input of 12 to 15 bytes. -/
theorem header_checks_error_cases (env : Env) (pkt : List Nat) (r : Run)
    (h : header_checks env pkt = Except.error r) :
    (r.out = Outcome.returned AVERROR_INVALIDDATA ∧
      ((pkt.length < 12 ∧
        r.log.getLast? = some (LogMsg.buf_size_too_small (pkt.length : Int))) ∨
     (12 ≤ pkt.length ∧
        ¬ (bytestream_get_byte pkt 0 = 77 ∧ bytestream_get_byte pkt 1 = 80 ∧
           bytestream_get_byte pkt 2 = 70 ∧ bytestream_get_byte pkt 3 = 70) ∧
        r.log.getLast? = some LogMsg.bad_magic_number) ∨
     (16 ≤ pkt.length ∧
        bytestream_get_le32 pkt 12 + 12 > bytestream_get_le32 pkt 8 ∧
        r.log.getLast? = some (LogMsg.invalid_header_size (bytestream_get_le32 pkt 8))) ∨
     (16 ≤ pkt.length ∧
        bytestream_get_le32 pkt 12 + 12 ≤ bytestream_get_le32 pkt 8 ∧
        fixup_fsize (pkt.length : Int) (bytestream_get_le32 pkt 12)
            (clamp_fsize (pkt.length : Int) (bytestream_get_le32 pkt 4))
          ≤ bytestream_get_le32 pkt 8 ∧
        r.log.getLast? = some (LogMsg.declared_file_size_less
          (fixup_fsize (pkt.length : Int) (bytestream_get_le32 pkt 12)
            (clamp_fsize (pkt.length : Int) (bytestream_get_le32 pkt 4)))
          (bytestream_get_le32 pkt 8))))) ∨
    (r.out = Outcome.undefined (Undefined.read_past_input 12 4) ∧ 12 ≤ pkt.length ∧
      pkt.length < 16 ∧
      (r.log = [] ∨ ∃ f, r.log = [LogMsg.not_enough_data (pkt.length : Int) f])) := by
  have hq : header_checks env pkt = header_checks env pkt := rfl
  conv at hq => rhs; simp only [header_checks]
  rw [h] at hq
  by_cases c1 : ((pkt.length : Nat) : Int) < 12
  · rw [if_pos c1] at hq
    injection hq with hq
    subst hq
    refine Or.inl ⟨rfl, Or.inl ⟨by omega, ?_⟩⟩
    simp [Run.reject]
  rw [if_neg c1] at hq
  by_cases c2 : bytestream_get_byte pkt 0 ≠ 77
  · rw [if_pos c2] at hq
    injection hq with hq
    subst hq
    refine Or.inl ⟨rfl, Or.inr (Or.inl ⟨by omega, fun hm => c2 hm.1, ?_⟩)⟩
    simp [Run.reject]
  rw [if_neg c2] at hq
  by_cases c3 : bytestream_get_byte pkt 1 ≠ 80
  · rw [if_pos c3] at hq
    injection hq with hq
    subst hq
    refine Or.inl ⟨rfl, Or.inr (Or.inl ⟨by omega, fun hm => c3 hm.2.1, ?_⟩)⟩
    simp [Run.reject]
  rw [if_neg c3] at hq
  by_cases c4 : bytestream_get_byte pkt 2 ≠ 70
  · rw [if_pos c4] at hq
    injection hq with hq
    subst hq
    refine Or.inl ⟨rfl, Or.inr (Or.inl ⟨by omega, fun hm => c4 hm.2.2.1, ?_⟩)⟩
    simp [Run.reject]
  rw [if_neg c4] at hq
  by_cases c5 : bytestream_get_byte pkt 3 ≠ 70
  · rw [if_pos c5] at hq
    injection hq with hq
    subst hq
    refine Or.inl ⟨rfl, Or.inr (Or.inl ⟨by omega, fun hm => c5 hm.2.2.2, ?_⟩)⟩
    simp [Run.reject]
  rw [if_neg c5] at hq
  by_cases c6 : pkt.length < 16
  · rw [if_pos c6] at hq
    injection hq with hq
    subst hq
    refine Or.inr ⟨rfl, by omega, c6, ?_⟩
    simp only [Run.stuck]
    split_ifs
    · exact Or.inr ⟨_, rfl⟩
    · exact Or.inl rfl
  rw [if_neg c6] at hq
  by_cases c7 : ((bytestream_get_le32 pkt 12 : Nat) : Int) + 12
      > ((bytestream_get_le32 pkt 8 : Nat) : Int)
  · rw [if_pos c7] at hq
    injection hq with hq
    subst hq
    refine Or.inl ⟨rfl, Or.inr (Or.inr (Or.inl ⟨by omega, by omega, ?_⟩))⟩
    simp [Run.reject]
  rw [if_neg c7] at hq
  by_cases c8 : fixup_fsize (pkt.length : Int) (bytestream_get_le32 pkt 12)
      (clamp_fsize (pkt.length : Int) (bytestream_get_le32 pkt 4))
      ≤ bytestream_get_le32 pkt 8
  · rw [if_pos c8] at hq
    injection hq with hq
    subst hq
    refine Or.inl ⟨rfl, Or.inr (Or.inr (Or.inr ⟨by omega, by omega, c8, ?_⟩))⟩
    simp [Run.reject]
  · rw [if_neg c8] at hq
    exact absurd hq (by simp)


/-- The height line 108 stores for a raw height other than `INT_MIN` is its
absolute value. -/
theorem stored_height_abs (h : Int) (h1 : -2147483648 < h) (h2 : h < 2147483648) :
    (if h > 0 then h else wrap32 (-h)) = (h.natAbs : Int) := by
  split_ifs with hpos
  · omega
  · rw [wrap32_of_range _ (by omega) (by omega)]
    omega

/-- C11 fails on the code at raw height `INT_MIN`: on `sample_int_min`, whose
height field holds `-2147483648`, line 108 stores `-2147483648` in the context,
not the absolute value `2147483648` and not a non-negative number; the host is
asked for a buffer of that height and the row loop copies no row. -/
theorem height_int_min_stored_negative :
    toInt32 (bytestream_get_le32 sample_int_min 20) = -2147483648 ∧
    (mpff_decode_frame (grant 4) env0 sample_int_min).env.avctx.height = -2147483648 ∧
    (mpff_decode_frame (grant 4) env0 sample_int_min).requests
      = [{ width := 1, height := -2147483648,
           pix_fmt := AVPixelFormat.AV_PIX_FMT_BGR24 }] ∧
    (mpff_decode_frame (grant 4) env0 sample_int_min).writes = [] ∧
    (mpff_decode_frame (grant 4) env0 sample_int_min).out = Outcome.returned 30 := by
  refine ⟨by decide, by decide, by decide, by decide, by decide⟩

/-- C13: when `mpff_decode_frame` is rejected by one of its four checks (too
short, bad magic, invalid header size, file size not above header size), the
host has not been asked for a buffer, nothing has been written, and the objects
handed over are as before the call: `*got_frame`, the context's width, height
and pixel format, and the frame. -/
theorem validation_failure_atomic (host : Host) (env : Env) (pkt : List Nat) (m : LogMsg)
    (hfail : (mpff_decode_frame host env pkt).rejected_with m)
    (hkind : (∃ b, m = LogMsg.buf_size_too_small b) ∨ m = LogMsg.bad_magic_number ∨
      (∃ h, m = LogMsg.invalid_header_size h) ∨
      (∃ f h, m = LogMsg.declared_file_size_less f h)) :
    (mpff_decode_frame host env pkt).requests = [] ∧
    (mpff_decode_frame host env pkt).writes = [] ∧
    (mpff_decode_frame host env pkt).env = env ∧
    (mpff_decode_frame host env pkt).env.got_frame = env.got_frame ∧
    (mpff_decode_frame host env pkt).env.avctx.width = env.avctx.width ∧
    (mpff_decode_frame host env pkt).env.avctx.height = env.avctx.height ∧
    (mpff_decode_frame host env pkt).env.avctx.pix_fmt = env.avctx.pix_fmt := by
  cases hc : header_checks env pkt with
  | error r =>
    obtain ⟨e1, e2, e3⟩ := header_checks_error env pkt r hc
    have hrun : mpff_decode_frame host env pkt = r := by
      simp only [mpff_decode_frame, hc]
    rw [hrun, e1, e2, e3]
    exact ⟨rfl, rfl, rfl, rfl, rfl, rfl, rfl⟩
  | ok s =>
    exfalso
    have hlog : (mpff_decode_frame host env pkt).log = s.log := by
      simp only [mpff_decode_frame, hc, decode_picture_log, List.append_nil]
    have hlast := hfail.2
    rw [hlog] at hlast
    rcases header_checks_ok_log env pkt s hc with hl | hl
    · rw [hl] at hlast
      simp at hlast
    · rw [hl] at hlast
      simp only [List.getLast?_singleton, Option.some.injEq] at hlast
      subst hlast
      rcases hkind with ⟨b, hb⟩ | hb | ⟨h, hb⟩ | ⟨f, h, hb⟩ <;> exact absurd hb (by simp)

/-- Witness of C13: a header declaring `file_size = 20` under
`header_size = 26` is rejected and leaves the objects untouched. -/
theorem validation_failure_atomic_witness :
    (mpff_decode_frame (grant 4) env0
      (mk_header 20 26 14 1 1 24 ++ [1, 2, 3, 4])).rejected_with
        (LogMsg.declared_file_size_less 20 26) ∧
    (mpff_decode_frame (grant 4) env0 (mk_header 20 26 14 1 1 24 ++ [1, 2, 3, 4])).requests
      = [] ∧
    (mpff_decode_frame (grant 4) env0 (mk_header 20 26 14 1 1 24 ++ [1, 2, 3, 4])).env
      = env0 :=
  have h := validation_failure_atomic (grant 4) env0
    (mk_header 20 26 14 1 1 24 ++ [1, 2, 3, 4]) (LogMsg.declared_file_size_less 20 26)
    (by decide) (Or.inr (Or.inr (Or.inr ⟨20, 26, rfl⟩)))
  ⟨by decide, h.1, h.2.2.1⟩

/-- Counterexample to C14: an 11-byte input, a 12-byte input with a wrong
magic, a header with `info_header_size + 12 > header_size` and a header with
`file_size <= header_size` are rejected by four different checks, and the four
returned values are one and the same, `AVERROR_INVALIDDATA`. -/
theorem rejections_return_same_value :
    (mpff_decode_frame (grant 4) env0
      [77, 80, 70, 70, 11, 0, 0, 0, 11, 0, 0]).rejected_with
        (LogMsg.buf_size_too_small 11) ∧
    (mpff_decode_frame (grant 4) env0
      [77, 80, 70, 71, 12, 0, 0, 0, 12, 0, 0, 0]).rejected_with LogMsg.bad_magic_number ∧
    (mpff_decode_frame (grant 4) env0 (mk_header 26 20 9 1 1 24)).rejected_with
      (LogMsg.invalid_header_size 20) ∧
    (mpff_decode_frame (grant 4) env0
      (mk_header 20 26 14 1 1 24 ++ [1, 2, 3, 4])).rejected_with
        (LogMsg.declared_file_size_less 20 26) ∧
    (mpff_decode_frame (grant 4) env0 [77, 80, 70, 70, 11, 0, 0, 0, 11, 0, 0]).out
      = (mpff_decode_frame (grant 4) env0 [77, 80, 70, 71, 12, 0, 0, 0, 12, 0, 0, 0]).out ∧
    (mpff_decode_frame (grant 4) env0 [77, 80, 70, 71, 12, 0, 0, 0, 12, 0, 0, 0]).out
      = (mpff_decode_frame (grant 4) env0 (mk_header 26 20 9 1 1 24)).out ∧
    (mpff_decode_frame (grant 4) env0 (mk_header 26 20 9 1 1 24)).out
      = (mpff_decode_frame (grant 4) env0 (mk_header 20 26 14 1 1 24 ++ [1, 2, 3, 4])).out := by
  refine ⟨by decide, by decide, by decide, by decide, by decide, by decide, by decide⟩

/-- C14 as amended: every return inside the checks of lines 52-99 returns the
one value `AVERROR_INVALIDDATA`; which check failed is told by the diagnostic
logged last, a different message for each of the four checks: "buf size too
small" exactly for a length below 12, "bad magic number" for a wrong magic byte,
"invalid header size" for `ihsize + 12 > hsize`, and "Declared file size is less
than header size" for a fixed-up file size not above `hsize`. -/
theorem rejections_told_by_diagnostic (host : Host) (env : Env) (pkt : List Nat) (r : Run)
    (v : Int) (h : header_checks env pkt = Except.error r)
    (hret : r.out = Outcome.returned v) :
    mpff_decode_frame host env pkt = r ∧ v = AVERROR_INVALIDDATA ∧
    ((pkt.length < 12 ∧
        r.log.getLast? = some (LogMsg.buf_size_too_small (pkt.length : Int))) ∨
     (12 ≤ pkt.length ∧
        ¬ (bytestream_get_byte pkt 0 = 77 ∧ bytestream_get_byte pkt 1 = 80 ∧
           bytestream_get_byte pkt 2 = 70 ∧ bytestream_get_byte pkt 3 = 70) ∧
        r.log.getLast? = some LogMsg.bad_magic_number) ∨
     (16 ≤ pkt.length ∧
        bytestream_get_le32 pkt 12 + 12 > bytestream_get_le32 pkt 8 ∧
        r.log.getLast? = some (LogMsg.invalid_header_size (bytestream_get_le32 pkt 8))) ∨
     (16 ≤ pkt.length ∧
        bytestream_get_le32 pkt 12 + 12 ≤ bytestream_get_le32 pkt 8 ∧
        fixup_fsize (pkt.length : Int) (bytestream_get_le32 pkt 12)
            (clamp_fsize (pkt.length : Int) (bytestream_get_le32 pkt 4))
          ≤ bytestream_get_le32 pkt 8 ∧
        r.log.getLast? = some (LogMsg.declared_file_size_less
          (fixup_fsize (pkt.length : Int) (bytestream_get_le32 pkt 12)
            (clamp_fsize (pkt.length : Int) (bytestream_get_le32 pkt 4)))
          (bytestream_get_le32 pkt 8)))) := by
  have hrun : mpff_decode_frame host env pkt = r := by
    simp only [mpff_decode_frame, h]
  refine ⟨hrun, ?_⟩
  rcases header_checks_error_cases env pkt r h with ⟨hout, hd⟩ | ⟨hout, -⟩
  · rw [hout] at hret
    injection hret with hv
    exact ⟨hv.symm, hd⟩
  · rw [hout] at hret
    exact absurd hret (by simp)

/-- Witness of C14 as amended, at the header with `file_size = 20` under
`header_size = 26`: the value returned, `-1094995529`, is `AVERROR_INVALIDDATA`. -/
theorem rejections_told_by_diagnostic_witness :
    mpff_decode_frame (grant 4) env0 (mk_header 20 26 14 1 1 24 ++ [1, 2, 3, 4])
      = Run.reject env0 AVERROR_INVALIDDATA [LogMsg.declared_file_size_less 20 26]
          [(0, 1), (1, 1), (2, 1), (3, 1), (4, 4), (8, 4), (12, 4)] ∧
    (-1094995529 : Int) = AVERROR_INVALIDDATA :=
  have h := rejections_told_by_diagnostic (grant 4) env0
    (mk_header 20 26 14 1 1 24 ++ [1, 2, 3, 4])
    (Run.reject env0 AVERROR_INVALIDDATA [LogMsg.declared_file_size_less 20 26]
      [(0, 1), (1, 1), (2, 1), (3, 1), (4, 4), (8, 4), (12, 4)])
    (-1094995529) (by rfl) (by rfl)
  ⟨h.1, h.2.1⟩

/-- C17 fails on the code.  `sample_file_header` has 12 bytes and the magic:
the first check lets it through and line 79 reads `ihsize` at offsets 12..15,
past its end.  `sample_no_geometry` has 16 bytes, passes every check of lines
52-99 (`ihsize + 12 = 12 <= hsize = 12 < fsize = 16`), and line 103 reads
`width` at offsets 16..19, past its end. -/
theorem header_reads_leave_short_input :
    sample_file_header.length = 12 ∧
    sample_file_header.take 4 = [77, 80, 70, 70] ∧
    (mpff_decode_frame (grant 4) env0 sample_file_header).out
      = Outcome.undefined (Undefined.read_past_input 12 4) ∧
    sample_no_geometry.length = 16 ∧
    header_checks env0 sample_no_geometry
      = Except.ok { fsize := 16, hsize := 12, ihsize := 0, log := [] } ∧
    (mpff_decode_frame (grant 4) env0 sample_no_geometry).out
      = Outcome.undefined (Undefined.read_past_input 16 4) := by
  refine ⟨by decide, by decide, by decide, by decide, by rfl, by decide⟩

/-- C18: on an input that passes the checks of lines 52-99,
`12 <= header_size < input length`: the cursor `buf0 + hsize` of line 131 is
strictly inside the input, and `dsize = buf_size - hsize` of line 132 is the
exact difference, strictly positive and below `2^31`. -/
theorem pixel_offset_inside_input (env : Env) (pkt : List Nat) (s : Sizes)
    (hs : header_checks env pkt = Except.ok s) (h31 : pkt.length < 2147483648) :
    s.hsize = bytestream_get_le32 pkt 8 ∧ 12 ≤ s.hsize ∧ s.hsize < pkt.length ∧
    dsize (pkt.length : Int) s.hsize = (pkt.length : Int) - (s.hsize : Int) ∧
    0 < dsize (pkt.length : Int) s.hsize ∧
    dsize (pkt.length : Int) s.hsize < 2147483648 := by
  obtain ⟨h12, hlt⟩ := header_checks_hsize_lt env pkt s hs h31
  obtain ⟨-, hhs, -, -, -, -⟩ := header_checks_ok env pkt s hs
  have hd : dsize (pkt.length : Int) s.hsize = (pkt.length : Int) - (s.hsize : Int) := by
    unfold dsize
    exact wrap32_of_range _ (by omega) (by omega)
  refine ⟨hhs, h12, hlt, hd, ?_, ?_⟩ <;> rw [hd] <;> omega

/-- Witness of C18 at `sample_bottom_up`: `header_size = 26` in 34 bytes. -/
theorem pixel_offset_inside_input_witness :
    (12 ≤ 26 ∧ 26 < sample_bottom_up.length) ∧
    dsize (sample_bottom_up.length : Int) 26 = (sample_bottom_up.length : Int) - 26 :=
  have h := pixel_offset_inside_input env0 sample_bottom_up
    { fsize := 34, hsize := 26, ihsize := 14, log := [] } (by rfl) (by decide)
  ⟨⟨h.2.1, h.2.2.1⟩, h.2.2.2.1⟩

/-- C19: whenever a run reaches the test `fsize == 12 || fsize == ihsize + 12`
of line 89 (it passes the checks, or it is rejected by the check of line 93
that follows the test), the check of line 82 has established
`ihsize + 12 <= hsize`, so `ihsize + 12` is below `2^32`: the 32-bit sum equals
the exact one, the test agrees with the test on exact integers for every
`fsize`, and so does the fix-up. -/
theorem fixup_test_exact (env : Env) (pkt : List Nat)
    (hreach : (∃ s, header_checks env pkt = Except.ok s) ∨
      (∃ r f h, header_checks env pkt = Except.error r ∧
        r.log.getLast? = some (LogMsg.declared_file_size_less f h))) :
    bytestream_get_le32 pkt 12 + 12 ≤ bytestream_get_le32 pkt 8 ∧
    bytestream_get_le32 pkt 12 + 12 < 4294967296 ∧
    (bytestream_get_le32 pkt 12 + 12) % 4294967296 = bytestream_get_le32 pkt 12 + 12 ∧
    (∀ fsize : Nat,
      ((fsize = 12 ∨ fsize = (bytestream_get_le32 pkt 12 + 12) % 4294967296)
        ↔ (fsize = 12 ∨ fsize = bytestream_get_le32 pkt 12 + 12)) ∧
      fixup_fsize (pkt.length : Int) (bytestream_get_le32 pkt 12) fsize
        = if fsize = 12 ∨ fsize = bytestream_get_le32 pkt 12 + 12
          then toU32 ((pkt.length : Int) - 2) else fsize) := by
  have hle : bytestream_get_le32 pkt 12 + 12 ≤ bytestream_get_le32 pkt 8 := by
    rcases hreach with ⟨s, hs⟩ | ⟨r, f, h, hr, hlast⟩
    · obtain ⟨-, hhs, hih, hle, -, -⟩ := header_checks_ok env pkt s hs
      omega
    · rcases header_checks_error_cases env pkt r hr with
        ⟨-, ⟨-, hl⟩ | ⟨-, -, hl⟩ | ⟨-, -, hl⟩ | ⟨-, hle, -, -⟩⟩ | ⟨-, -, -, hl | ⟨g, hl⟩⟩
      · rw [hl] at hlast
        exact absurd hlast (by simp)
      · rw [hl] at hlast
        exact absurd hlast (by simp)
      · rw [hl] at hlast
        exact absurd hlast (by simp)
      · exact hle
      · rw [hl] at hlast
        exact absurd hlast (by simp)
      · rw [hl] at hlast
        exact absurd hlast (by simp)
  have hhs := bytestream_get_le32_lt pkt 8
  have hmod : (bytestream_get_le32 pkt 12 + 12) % 4294967296
      = bytestream_get_le32 pkt 12 + 12 := Nat.mod_eq_of_lt (by omega)
  refine ⟨hle, by omega, hmod, fun fsize => ⟨by rw [hmod], ?_⟩⟩
  unfold fixup_fsize
  rw [hmod]

/-- Witness of C19 at `sample_bottom_up`, which passes the checks with
`ihsize = 14` and `hsize = 26`. -/
theorem fixup_test_exact_witness :
    bytestream_get_le32 sample_bottom_up 12 + 12 ≤ bytestream_get_le32 sample_bottom_up 8 ∧
    bytestream_get_le32 sample_bottom_up 12 + 12 < 4294967296 :=
  have h := fixup_test_exact env0 sample_bottom_up
    (Or.inl ⟨{ fsize := 34, hsize := 26, ihsize := 14, log := [] }, by rfl⟩)
  ⟨h.1, h.2.1⟩

/-! ### Shared lemmas: the ways lines 103-161 end -/

/-- On an input that ends before its geometry fields, lines 103-105 read past
its end; the host is not called. -/
theorem decode_picture_short (host : Host) (env : Env) (pkt : List Nat) (hsize : Nat)
    (h : pkt.length < 26) :
    (∃ u, (decode_picture host env pkt hsize).out = Outcome.undefined u) ∧
    (decode_picture host env pkt hsize).requests = [] ∧
    (decode_picture host env pkt hsize).writes = [] ∧
    (decode_picture host env pkt hsize).env = env := by
  unfold decode_picture
  by_cases c1 : pkt.length < 20
  · simp only [c1, if_true, Run.stuck]
    exact ⟨⟨_, rfl⟩, trivial, trivial, trivial⟩
  by_cases c2 : pkt.length < 24
  · simp only [c1, c2, if_true, if_false, Run.stuck]
    exact ⟨⟨_, rfl⟩, trivial, trivial, trivial⟩
  simp only [c1, c2, h, if_true, if_false, Run.stuck]
  exact ⟨⟨_, rfl⟩, trivial, trivial, trivial⟩

/-- Lines 103-124 when the geometry lies in the input and the host refuses the
buffer: the run returns the host's code. -/
theorem decode_picture_refused (host : Host) (env : Env) (pkt : List Nat) (hsize : Nat)
    (h26 : 26 ≤ pkt.length) (ret : Int) (fr : AVFrame) (hret : ret < 0)
    (hgrant : host
      { width := toInt32 (bytestream_get_le32 pkt 16),
        height := if toInt32 (bytestream_get_le32 pkt 20) > 0
          then toInt32 (bytestream_get_le32 pkt 20)
          else wrap32 (-toInt32 (bytestream_get_le32 pkt 20)),
        pix_fmt := AVPixelFormat.AV_PIX_FMT_BGR24 } env.p = (ret, fr)) :
    decode_picture host env pkt hsize =
      { out := Outcome.returned ret,
        env :=
          { avctx :=
              { width := toInt32 (bytestream_get_le32 pkt 16),
                height := if toInt32 (bytestream_get_le32 pkt 20) > 0
                  then toInt32 (bytestream_get_le32 pkt 20)
                  else wrap32 (-toInt32 (bytestream_get_le32 pkt 20)),
                pix_fmt := AVPixelFormat.AV_PIX_FMT_BGR24 },
            p := fr, got_frame := env.got_frame },
        log := [],
        reads := [(16, 4), (20, 4), (24, 2)],
        requests :=
          [{ width := toInt32 (bytestream_get_le32 pkt 16),
             height := if toInt32 (bytestream_get_le32 pkt 20) > 0
               then toInt32 (bytestream_get_le32 pkt 20)
               else wrap32 (-toInt32 (bytestream_get_le32 pkt 20)),
             pix_fmt := AVPixelFormat.AV_PIX_FMT_BGR24 }],
        writes := [] } := by
  have c1 : ¬ (pkt.length < 20) := by omega
  have c2 : ¬ (pkt.length < 24) := by omega
  have c3 : ¬ (pkt.length < 26) := by omega
  unfold decode_picture
  simp only [c1, c2, c3, if_false, hgrant, hret, if_true, reduceCtorEq]

/-- Lines 103-161 when the geometry lies in the input, the host grants a frame
and the row loop stops at an undefined step: the run stops there, after the one
request to the host. -/
theorem decode_picture_stopped (host : Host) (env : Env) (pkt : List Nat) (hsize : Nat)
    (h26 : 26 ≤ pkt.length) (ret : Int) (fr : AVFrame) (hret : 0 ≤ ret)
    (hgrant : host
      { width := toInt32 (bytestream_get_le32 pkt 16),
        height := if toInt32 (bytestream_get_le32 pkt 20) > 0
          then toInt32 (bytestream_get_le32 pkt 20)
          else wrap32 (-toInt32 (bytestream_get_le32 pkt 20)),
        pix_fmt := AVPixelFormat.AV_PIX_FMT_BGR24 } env.p = (ret, fr))
    (r : RowLoop)
    (hloop : row_loop pkt
      (row_stride (toInt32 (bytestream_get_le32 pkt 16)) (bytestream_get_le16 pkt 24))
      (if toInt32 (bytestream_get_le32 pkt 20) > 0 then wrap32 (-fr.linesize)
        else fr.linesize)
      (if toInt32 (bytestream_get_le32 pkt 20) > 0
          then toInt32 (bytestream_get_le32 pkt 20)
          else wrap32 (-toInt32 (bytestream_get_le32 pkt 20))).toNat
      hsize
      (if toInt32 (bytestream_get_le32 pkt 20) > 0 then
        wrap32 (((if toInt32 (bytestream_get_le32 pkt 20) > 0
          then toInt32 (bytestream_get_le32 pkt 20)
          else wrap32 (-toInt32 (bytestream_get_le32 pkt 20))) - 1) * fr.linesize)
        else 0)
      fr.data = r)
    (u : Undefined) (hub : r.ub = some u) :
    (decode_picture host env pkt hsize).out = Outcome.undefined u ∧
    (decode_picture host env pkt hsize).log = [] ∧
    (decode_picture host env pkt hsize).requests =
      [{ width := toInt32 (bytestream_get_le32 pkt 16),
         height := if toInt32 (bytestream_get_le32 pkt 20) > 0
           then toInt32 (bytestream_get_le32 pkt 20)
           else wrap32 (-toInt32 (bytestream_get_le32 pkt 20)),
         pix_fmt := AVPixelFormat.AV_PIX_FMT_BGR24 }] ∧
    (decode_picture host env pkt hsize).writes = r.writes := by
  have c1 : ¬ (pkt.length < 20) := by omega
  have c2 : ¬ (pkt.length < 24) := by omega
  have c3 : ¬ (pkt.length < 26) := by omega
  have c4 : ¬ (ret < 0) := by omega
  unfold decode_picture
  simp only [c1, c2, c3, if_false, hgrant, c4, reduceCtorEq, hloop, hub, and_self]

/-- A row loop that stays defined has read its `rows` source rows inside the
input. -/
theorem row_loop_defined (pkt : List Nat) (n : Nat) (linesize : Int) :
    ∀ (rows buf : Nat) (ptr : Int) (data : List Nat),
      (row_loop pkt n linesize rows buf ptr data).ub = none →
      rows = 0 ∨ buf + rows * n ≤ pkt.length := by
  intro rows
  induction rows with
  | zero =>
    intro buf ptr data _
    exact Or.inl rfl
  | succ k ih =>
    intro buf ptr data hub
    right
    by_cases hr : pkt.length < buf + n
    · simp [row_loop, hr] at hub
    by_cases hw : ptr < 0 ∨ (data.length : Int) < ptr + n
    · simp [row_loop, hr, hw] at hub
    simp only [row_loop, hr, hw, if_false] at hub
    have e1 : (k + 1) * n = k * n + n := Nat.succ_mul k n
    rcases ih _ _ _ hub with h0 | h1
    · subst h0
      omega
    · omega

theorem averror_invaliddata_neg : AVERROR_INVALIDDATA < 0 := by decide

/-- A call that returns a non-negative value has passed the checks, found its
geometry in the input, been granted a frame by the host, and run its row loop
to the end without an undefined step. -/
theorem success_run (host : Host) (env : Env) (pkt : List Nat) (v : Int)
    (hout : (mpff_decode_frame host env pkt).out = Outcome.returned v) (hv : 0 ≤ v) :
    (∃ s, header_checks env pkt = Except.ok s) ∧ 26 ≤ pkt.length ∧
    0 ≤ (host
      { width := toInt32 (bytestream_get_le32 pkt 16),
        height := if toInt32 (bytestream_get_le32 pkt 20) > 0
          then toInt32 (bytestream_get_le32 pkt 20)
          else wrap32 (-toInt32 (bytestream_get_le32 pkt 20)),
        pix_fmt := AVPixelFormat.AV_PIX_FMT_BGR24 } env.p).1 ∧
    (row_loop pkt
      (row_stride (toInt32 (bytestream_get_le32 pkt 16)) (bytestream_get_le16 pkt 24))
      (if toInt32 (bytestream_get_le32 pkt 20) > 0 then wrap32 (-(host
          { width := toInt32 (bytestream_get_le32 pkt 16),
            height := if toInt32 (bytestream_get_le32 pkt 20) > 0
              then toInt32 (bytestream_get_le32 pkt 20)
              else wrap32 (-toInt32 (bytestream_get_le32 pkt 20)),
            pix_fmt := AVPixelFormat.AV_PIX_FMT_BGR24 } env.p).2.linesize)
        else (host
          { width := toInt32 (bytestream_get_le32 pkt 16),
            height := if toInt32 (bytestream_get_le32 pkt 20) > 0
              then toInt32 (bytestream_get_le32 pkt 20)
              else wrap32 (-toInt32 (bytestream_get_le32 pkt 20)),
            pix_fmt := AVPixelFormat.AV_PIX_FMT_BGR24 } env.p).2.linesize)
      (if toInt32 (bytestream_get_le32 pkt 20) > 0
          then toInt32 (bytestream_get_le32 pkt 20)
          else wrap32 (-toInt32 (bytestream_get_le32 pkt 20))).toNat
      (bytestream_get_le32 pkt 8)
      (if toInt32 (bytestream_get_le32 pkt 20) > 0 then
        wrap32 (((if toInt32 (bytestream_get_le32 pkt 20) > 0
          then toInt32 (bytestream_get_le32 pkt 20)
          else wrap32 (-toInt32 (bytestream_get_le32 pkt 20))) - 1) * (host
          { width := toInt32 (bytestream_get_le32 pkt 16),
            height := if toInt32 (bytestream_get_le32 pkt 20) > 0
              then toInt32 (bytestream_get_le32 pkt 20)
              else wrap32 (-toInt32 (bytestream_get_le32 pkt 20)),
            pix_fmt := AVPixelFormat.AV_PIX_FMT_BGR24 } env.p).2.linesize)
        else 0)
      (host
          { width := toInt32 (bytestream_get_le32 pkt 16),
            height := if toInt32 (bytestream_get_le32 pkt 20) > 0
              then toInt32 (bytestream_get_le32 pkt 20)
              else wrap32 (-toInt32 (bytestream_get_le32 pkt 20)),
            pix_fmt := AVPixelFormat.AV_PIX_FMT_BGR24 } env.p).2.data).ub = none := by
  have hneg := averror_invaliddata_neg
  cases hc : header_checks env pkt with
  | error r =>
    exfalso
    have hrun : mpff_decode_frame host env pkt = r := by
      simp only [mpff_decode_frame, hc]
    rw [hrun] at hout
    rcases header_checks_error_cases env pkt r hc with ⟨ho, -⟩ | ⟨ho, -⟩
    · rw [ho] at hout
      injection hout with hout
      omega
    · rw [ho] at hout
      exact absurd hout (by simp)
  | ok s =>
    obtain ⟨-, hhs, -, -, -, -⟩ := header_checks_ok env pkt s hc
    have hrun : (mpff_decode_frame host env pkt).out
        = (decode_picture host env pkt (bytestream_get_le32 pkt 8)).out := by
      simp only [mpff_decode_frame, hc, hhs]
    rw [hrun] at hout
    have h26 : 26 ≤ pkt.length := by
      by_contra hlt
      obtain ⟨⟨u, hu⟩, -⟩ := decode_picture_short host env pkt
        (bytestream_get_le32 pkt 8) (by omega)
      rw [hu] at hout
      exact absurd hout (by simp)
    generalize hg : host
      { width := toInt32 (bytestream_get_le32 pkt 16),
        height := if toInt32 (bytestream_get_le32 pkt 20) > 0
          then toInt32 (bytestream_get_le32 pkt 20)
          else wrap32 (-toInt32 (bytestream_get_le32 pkt 20)),
        pix_fmt := AVPixelFormat.AV_PIX_FMT_BGR24 } env.p = got
    obtain ⟨ret, fr⟩ := got
    have hret : 0 ≤ ret := by
      by_contra hlt
      have hrf := decode_picture_refused host env pkt (bytestream_get_le32 pkt 8) h26 ret fr
        (by omega) hg
      rw [hrf] at hout
      injection hout with hout
      omega
    refine ⟨⟨s, rfl⟩, h26, hret, ?_⟩
    by_contra hub
    obtain ⟨u, hu⟩ := Option.ne_none_iff_exists'.mp hub
    have hst := decode_picture_stopped host env pkt (bytestream_get_le32 pkt 8) h26 ret fr
      hret hg _ rfl u hu
    rw [hst.1] at hout
    exact absurd hout (by simp)

/-- C16: every call of `mpff_decode_frame` that succeeds (returns a
non-negative value) returns the full input length, whatever the declared or
fixed-up file size is, has set `*got_frame` to 1 and has marked the frame as an
intra key frame (`pict_type = AV_PICTURE_TYPE_I`, `key_frame = 1`). -/
theorem success_marks_key_frame (host : Host) (env : Env) (pkt : List Nat) (v : Int)
    (hout : (mpff_decode_frame host env pkt).out = Outcome.returned v) (hv : 0 ≤ v) :
    v = (pkt.length : Int) ∧
    (mpff_decode_frame host env pkt).env.got_frame = 1 ∧
    (mpff_decode_frame host env pkt).env.p.pict_type = AVPictureType.AV_PICTURE_TYPE_I ∧
    (mpff_decode_frame host env pkt).env.p.key_frame = 1 := by
  obtain ⟨⟨s, hs⟩, h26, hret, hub⟩ := success_run host env pkt v hout hv
  have hrun := mpff_decode_frame_granted host env pkt s hs h26 _ _ hret rfl _ rfl hub
  rw [hrun] at hout ⊢
  injection hout with hout
  exact ⟨hout.symm, rfl, rfl, rfl⟩

/-- Witness of C16: an input of 34 bytes whose `file_size` field is 12 (fixed
up to 32) decodes with the return value 34. -/
theorem success_marks_key_frame_witness :
    (mpff_decode_frame (grant 8) env0
      (mk_header 12 26 14 1 2 24 ++ [1, 2, 3, 4, 5, 6, 7, 8])).out = Outcome.returned 34 ∧
    (34 : Int) = ((mk_header 12 26 14 1 2 24 ++ [1, 2, 3, 4, 5, 6, 7, 8]).length : Int) ∧
    (mpff_decode_frame (grant 8) env0
      (mk_header 12 26 14 1 2 24 ++ [1, 2, 3, 4, 5, 6, 7, 8])).env.got_frame = 1 :=
  have h := success_marks_key_frame (grant 8) env0
    (mk_header 12 26 14 1 2 24 ++ [1, 2, 3, 4, 5, 6, 7, 8]) 34 (by decide) (by decide)
  ⟨by decide, h.1, h.2.1⟩

/-- The run on an input that passes the checks and holds its geometry, by the
answer of the host: a refusal is returned as it is, and after a grant the run
returns the input length or stops at an undefined step of the row loop.  In
each case the host was asked once, for the raw width, the stored height and
`AV_PIX_FMT_BGR24`, and no further diagnostic was logged. -/
theorem accepted_run (host : Host) (env : Env) (pkt : List Nat) (s : Sizes)
    (hs : header_checks env pkt = Except.ok s) (h26 : 26 ≤ pkt.length)
    (ret : Int) (fr : AVFrame)
    (hgot : host
      { width := toInt32 (bytestream_get_le32 pkt 16),
        height := if toInt32 (bytestream_get_le32 pkt 20) > 0
          then toInt32 (bytestream_get_le32 pkt 20)
          else wrap32 (-toInt32 (bytestream_get_le32 pkt 20)),
        pix_fmt := AVPixelFormat.AV_PIX_FMT_BGR24 } env.p = (ret, fr)) :
    (mpff_decode_frame host env pkt).requests =
      [{ width := toInt32 (bytestream_get_le32 pkt 16),
         height := if toInt32 (bytestream_get_le32 pkt 20) > 0
           then toInt32 (bytestream_get_le32 pkt 20)
           else wrap32 (-toInt32 (bytestream_get_le32 pkt 20)),
         pix_fmt := AVPixelFormat.AV_PIX_FMT_BGR24 }] ∧
    (ret < 0 → (mpff_decode_frame host env pkt).out = Outcome.returned ret) ∧
    (0 ≤ ret → (mpff_decode_frame host env pkt).out = Outcome.returned (pkt.length : Int) ∨
      ∃ u, (mpff_decode_frame host env pkt).out = Outcome.undefined u) ∧
    (mpff_decode_frame host env pkt).log = s.log := by
  have hlog : (mpff_decode_frame host env pkt).log = s.log := by
    simp only [mpff_decode_frame, hs, decode_picture_log, List.append_nil]
  have hreq : (mpff_decode_frame host env pkt).requests
      = (decode_picture host env pkt s.hsize).requests := by
    simp only [mpff_decode_frame, hs]
  have hout : (mpff_decode_frame host env pkt).out
      = (decode_picture host env pkt s.hsize).out := by
    simp only [mpff_decode_frame, hs]
  rw [hreq, hout]
  by_cases hret : ret < 0
  · have hrf := decode_picture_refused host env pkt s.hsize h26 ret fr hret hgot
    rw [hrf]
    exact ⟨rfl, fun _ => rfl, fun h => absurd h (by omega), hlog⟩
  · cases hub : (row_loop pkt
      (row_stride (toInt32 (bytestream_get_le32 pkt 16)) (bytestream_get_le16 pkt 24))
      (if toInt32 (bytestream_get_le32 pkt 20) > 0 then wrap32 (-fr.linesize)
        else fr.linesize)
      (if toInt32 (bytestream_get_le32 pkt 20) > 0
          then toInt32 (bytestream_get_le32 pkt 20)
          else wrap32 (-toInt32 (bytestream_get_le32 pkt 20))).toNat
      s.hsize
      (if toInt32 (bytestream_get_le32 pkt 20) > 0 then
        wrap32 (((if toInt32 (bytestream_get_le32 pkt 20) > 0
          then toInt32 (bytestream_get_le32 pkt 20)
          else wrap32 (-toInt32 (bytestream_get_le32 pkt 20))) - 1) * fr.linesize)
        else 0)
      fr.data).ub with
    | none =>
      have hgr := decode_picture_granted host env pkt s.hsize h26 ret fr (by omega) hgot _
        rfl hub
      rw [hgr]
      exact ⟨rfl, fun h => absurd h hret, fun _ => Or.inl rfl, hlog⟩
    | some u =>
      have hst := decode_picture_stopped host env pkt s.hsize h26 ret fr (by omega) hgot _
        rfl u hub
      rw [hst.1, hst.2.2.1]
      exact ⟨rfl, fun h => absurd h hret, fun _ => Or.inr ⟨u, rfl⟩, hlog⟩

theorem bytestream_get_le32_congr_range (p q : List Nat) (pos : Nat)
    (h : ∀ i, pos ≤ i → i < pos + 4 → q[i]? = p[i]?) :
    bytestream_get_le32 q pos = bytestream_get_le32 p pos := by
  unfold bytestream_get_le32
  rw [bytestream_get_byte_congr p q pos (h _ (by omega) (by omega)),
    bytestream_get_byte_congr p q (pos + 1) (h _ (by omega) (by omega)),
    bytestream_get_byte_congr p q (pos + 2) (h _ (by omega) (by omega)),
    bytestream_get_byte_congr p q (pos + 3) (h _ (by omega) (by omega))]

/-- The checks of lines 52-99 depend on the input through its length and its
first 16 bytes only. -/
theorem header_checks_congr (env : Env) (p q : List Nat) (hlen : q.length = p.length)
    (h : ∀ i, i < 16 → q[i]? = p[i]?) :
    header_checks env q = header_checks env p := by
  have b0 := bytestream_get_byte_congr p q 0 (h 0 (by omega))
  have b1 := bytestream_get_byte_congr p q 1 (h 1 (by omega))
  have b2 := bytestream_get_byte_congr p q 2 (h 2 (by omega))
  have b3 := bytestream_get_byte_congr p q 3 (h 3 (by omega))
  have e4 := bytestream_get_le32_congr_range p q 4 (fun i _ hi => h i (by omega))
  have e8 := bytestream_get_le32_congr_range p q 8 (fun i _ hi => h i (by omega))
  have e12 := bytestream_get_le32_congr_range p q 12 (fun i _ hi => h i (by omega))
  unfold header_checks
  simp only [hlen, b0, b1, b2, b3, e4, e8, e12]

/-- C15 fails on the code at raw height `INT_MIN`.  `sample_int_min` has 30
bytes, the magic, `ihsize + 12 = 26 <= hsize = 26` and the effective file size
`30 > 26`, so it passes every check of lines 52-99; its raw width is 1 and its
raw height is `-2147483648`, of absolute value `2147483648`.  Line 108 stores
`-2147483648` as the height, and the one request made to the host is for a
buffer of width 1 and height `-2147483648`, not of the raw width by the
absolute raw height. -/
theorem acceptance_int_min_request :
    12 ≤ sample_int_min.length ∧
    sample_int_min.take 4 = [77, 80, 70, 70] ∧
    bytestream_get_le32 sample_int_min 12 + 12 ≤ bytestream_get_le32 sample_int_min 8 ∧
    header_checks env0 sample_int_min
      = Except.ok { fsize := 30, hsize := 26, ihsize := 14, log := [] } ∧
    toInt32 (bytestream_get_le32 sample_int_min 16) = 1 ∧
    toInt32 (bytestream_get_le32 sample_int_min 20) = -2147483648 ∧
    ((toInt32 (bytestream_get_le32 sample_int_min 20)).natAbs : Int) = 2147483648 ∧
    (mpff_decode_frame (grant 4) env0 sample_int_min).requests
      = [{ width := 1, height := -2147483648,
           pix_fmt := AVPixelFormat.AV_PIX_FMT_BGR24 }] ∧
    (mpff_decode_frame (grant 4) env0 sample_int_min).requests
      ≠ [{ width := toInt32 (bytestream_get_le32 sample_int_min 16),
           height := ((toInt32 (bytestream_get_le32 sample_int_min 20)).natAbs : Int),
           pix_fmt := AVPixelFormat.AV_PIX_FMT_BGR24 }] := by
  refine ⟨by decide, by decide, by decide, by rfl, by decide, by decide, by decide, by decide,
    by decide⟩

/-- Away from the raw height `INT_MIN`: on an input of at least 26 bytes with
the magic, `ihsize + 12 <= hsize` and an effective file size above `hsize`,
whose raw height is not `-2^31`, `mpff_decode_frame` asks the host once, for a
buffer of the raw width by the absolute raw height in `AV_PIX_FMT_BGR24`, and
every input of the same length with the same first 24 bytes (whatever its depth
field and the bytes after it) leads to the same request.  A refusal of the host
is returned as it is; after a grant the run returns the input length or stops
at an undefined step of the row loop.  No diagnostic but the clamp's is
logged. -/
theorem acceptance_depth_independent (host : Host) (env : Env) (pkt : List Nat) (eff : Nat)
    (ret : Int) (fr : AVFrame)
    (h26 : 26 ≤ pkt.length) (h31 : pkt.length < 2147483648)
    (hmagic : pkt.take 4 = [77, 80, 70, 70])
    (hih : bytestream_get_le32 pkt 12 + 12 ≤ bytestream_get_le32 pkt 8)
    (heff : eff = if min (bytestream_get_le32 pkt 4) pkt.length = 12 ∨
        min (bytestream_get_le32 pkt 4) pkt.length = bytestream_get_le32 pkt 12 + 12
      then pkt.length - 2 else min (bytestream_get_le32 pkt 4) pkt.length)
    (hgt : bytestream_get_le32 pkt 8 < eff)
    (hmin : toInt32 (bytestream_get_le32 pkt 20) ≠ -2147483648)
    (hgot : host
      { width := toInt32 (bytestream_get_le32 pkt 16),
        height := ((toInt32 (bytestream_get_le32 pkt 20)).natAbs : Int),
        pix_fmt := AVPixelFormat.AV_PIX_FMT_BGR24 } env.p = (ret, fr)) :
    (mpff_decode_frame host env pkt).requests =
      [{ width := toInt32 (bytestream_get_le32 pkt 16),
         height := ((toInt32 (bytestream_get_le32 pkt 20)).natAbs : Int),
         pix_fmt := AVPixelFormat.AV_PIX_FMT_BGR24 }] ∧
    (ret < 0 → (mpff_decode_frame host env pkt).out = Outcome.returned ret) ∧
    (0 ≤ ret → (mpff_decode_frame host env pkt).out = Outcome.returned (pkt.length : Int) ∨
      ∃ u, (mpff_decode_frame host env pkt).out = Outcome.undefined u) ∧
    ((mpff_decode_frame host env pkt).log = [] ∨
      (mpff_decode_frame host env pkt).log
        = [LogMsg.not_enough_data (pkt.length : Int) (bytestream_get_le32 pkt 4)]) ∧
    (∀ pkt2 : List Nat, pkt2.length = pkt.length → (∀ i, i < 24 → pkt2[i]? = pkt[i]?) →
      (mpff_decode_frame host env pkt2).requests = (mpff_decode_frame host env pkt).requests) := by
  have hchk := header_checks_of_magic env pkt (by omega) h31 hmagic
  have hnot : ¬ (bytestream_get_le32 pkt 8 < bytestream_get_le32 pkt 12 + 12) := by omega
  have hnle : ¬ (eff ≤ bytestream_get_le32 pkt 8) := by omega
  simp only [hnot, if_false, ← heff, hnle] at hchk
  have hrange := toInt32_range (bytestream_get_le32 pkt 20)
  have hsh := stored_height_abs (toInt32 (bytestream_get_le32 pkt 20)) (by omega) (by omega)
  rw [← hsh] at hgot ⊢
  obtain ⟨a1, a2, a3, a4⟩ := accepted_run host env pkt _ hchk h26 ret fr hgot
  refine ⟨a1, a2, a3, ?_, ?_⟩
  · rw [a4]
    rcases header_checks_ok_log env pkt _ hchk with hl | hl
    · exact Or.inl hl
    · exact Or.inr hl
  · intro pkt2 hlen2 hagree
    have hchk2 : header_checks env pkt2 = header_checks env pkt :=
      header_checks_congr env pkt pkt2 hlen2 (fun i hi => hagree i (by omega))
    rw [hchk] at hchk2
    have e16 := bytestream_get_le32_congr_range pkt pkt2 16
      (fun i _ hi => hagree i (by omega))
    have e20 := bytestream_get_le32_congr_range pkt pkt2 20
      (fun i _ hi => hagree i (by omega))
    obtain ⟨b1, -⟩ := accepted_run host env pkt2 _ hchk2 (by omega) ret fr
      (by rw [e16, e20]; exact hgot)
    rw [b1, a1, e16, e20]

/-- An instance at `sample_bottom_up`: the host is asked for a 1 by 2 buffer in
`AV_PIX_FMT_BGR24`. -/
theorem acceptance_depth_independent_witness :
    bytestream_get_le32 sample_bottom_up 8 < 34 ∧
    (mpff_decode_frame (grant 8) env0 sample_bottom_up).requests
      = [{ width := toInt32 (bytestream_get_le32 sample_bottom_up 16),
           height := ((toInt32 (bytestream_get_le32 sample_bottom_up 20)).natAbs : Int),
           pix_fmt := AVPixelFormat.AV_PIX_FMT_BGR24 }] :=
  ⟨by decide,
   (acceptance_depth_independent (grant 8) env0 sample_bottom_up 34 0
      { data := List.replicate 16 0, linesize := 8,
        pict_type := AVPictureType.AV_PICTURE_TYPE_NONE, key_frame := 0 }
      (by decide) (by decide) (by decide) (by decide) (by decide) (by decide) (by decide)
      (by rfl)).1⟩

/-! ### Shared lemmas: the writes of the row loop, whatever the input holds -/

theorem mul_add_le_of_lt (a b L : Nat) (h : a < b) : a * L + L ≤ b * L := by
  have h1 := Nat.mul_le_mul_right L (show a + 1 ≤ b by omega)
  rw [Nat.succ_mul] at h1
  exact h1

/-- The row loop with a forward destination step `L >= n` in a plane that holds
`rows` lines from `base`: it never writes outside the plane; it copies the
first `k` rows to their lines and then either has finished (`k = rows`) or
stops at a read past the input. -/
theorem row_loop_forward_safe (pkt : List Nat) (n L : Nat) (hn : n ≤ L) :
    ∀ (rows buf base : Nat) (data : List Nat), base + rows * L ≤ data.length →
      ∃ k, k ≤ rows ∧
        (row_loop pkt n (L : Int) rows buf (base : Int) data).writes
          = (List.range k).map (fun i => (((base + i * L : Nat) : Int), n)) ∧
        (((row_loop pkt n (L : Int) rows buf (base : Int) data).ub = none ∧ k = rows) ∨
          (∃ off, (row_loop pkt n (L : Int) rows buf (base : Int) data).ub
            = some (Undefined.read_past_input off n) ∧ k < rows)) := by
  intro rows
  induction rows with
  | zero =>
    intro buf base data _
    exact ⟨0, Nat.le_refl 0, by simp [row_loop], Or.inl ⟨by simp [row_loop], rfl⟩⟩
  | succ r ih =>
    intro buf base data hdst
    have e2 : (r + 1) * L = r * L + L := Nat.succ_mul r L
    by_cases hr : pkt.length < buf + n
    · refine ⟨0, by omega, by simp [row_loop, hr], Or.inr ⟨buf, by simp [row_loop, hr], by omega⟩⟩
    · have hw : ¬ (((base : Nat) : Int) < 0 ∨
          ((data.length : Nat) : Int) < (base : Int) + (n : Int)) := by omega
      have hrow := source_row_length pkt buf n (by omega)
      have hlen1 : (memcpy data base ((pkt.drop buf).take n)).length = data.length :=
        memcpy_length _ _ _ (by rw [hrow]; omega)
      have hcast : ((base : Nat) : Int) + ((L : Nat) : Int) = ((base + L : Nat) : Int) := by
        push_cast; rfl
      obtain ⟨k, hk, hwr, hub⟩ := ih (buf + n) (base + L)
        (memcpy data base ((pkt.drop buf).take n)) (by rw [hlen1]; omega)
      refine ⟨k + 1, by omega, ?_, ?_⟩
      · simp only [row_loop, hr, hw, if_false, Int.toNat_ofNat, hcast]
        rw [hwr, List.range_succ_eq_map, List.map_cons, List.map_map]
        simp only [Nat.zero_mul, Nat.add_zero, List.cons.injEq, true_and]
        apply List.map_congr_left
        intro i _
        have e3 : (i + 1) * L = i * L + L := Nat.succ_mul i L
        simp only [Function.comp, Nat.succ_eq_add_one, Prod.mk.injEq, and_true]
        omega
      · simp only [row_loop, hr, hw, if_false, Int.toNat_ofNat, hcast]
        rcases hub with ⟨h1, h2⟩ | ⟨off, h1, h2⟩
        · exact Or.inl ⟨h1, by omega⟩
        · exact Or.inr ⟨off, h1, by omega⟩

/-- The row loop with a backward destination step `-L`, `L >= n`, started at
the last of the `rows` lines a plane holds: it never writes outside the plane;
it copies the first `k` rows to the lines `rows - 1`, `rows - 2`, ... and then
either has finished (`k = rows`) or stops at a read past the input. -/
theorem row_loop_backward_safe (pkt : List Nat) (n L : Nat) (hn : n ≤ L) :
    ∀ (rows buf : Nat) (data : List Nat), rows * L ≤ data.length →
      ∃ k, k ≤ rows ∧
        (row_loop pkt n (-(L : Int)) rows buf ((rows : Int) * L - L) data).writes
          = (List.range k).map (fun i => ((((rows - 1 - i) * L : Nat) : Int), n)) ∧
        (((row_loop pkt n (-(L : Int)) rows buf ((rows : Int) * L - L) data).ub = none ∧
            k = rows) ∨
          (∃ off, (row_loop pkt n (-(L : Int)) rows buf ((rows : Int) * L - L) data).ub
            = some (Undefined.read_past_input off n) ∧ k < rows)) := by
  intro rows
  induction rows with
  | zero =>
    intro buf data _
    exact ⟨0, Nat.le_refl 0, by simp [row_loop], Or.inl ⟨by simp [row_loop], rfl⟩⟩
  | succ r ih =>
    intro buf data hdst
    have e2 : (r + 1) * L = r * L + L := Nat.succ_mul r L
    have hptr : ((r + 1 : Nat) : Int) * (L : Int) - (L : Int) = ((r * L : Nat) : Int) := by
      push_cast; ring
    have hnext : ((r * L : Nat) : Int) + -(L : Int) = (r : Int) * (L : Int) - (L : Int) := by
      push_cast; ring
    rw [hptr]
    by_cases hr : pkt.length < buf + n
    · refine ⟨0, by omega, by simp [row_loop, hr], Or.inr ⟨buf, by simp [row_loop, hr], by omega⟩⟩
    · have hw : ¬ (((r * L : Nat) : Int) < 0 ∨
          ((data.length : Nat) : Int) < ((r * L : Nat) : Int) + (n : Int)) := by omega
      have hrow := source_row_length pkt buf n (by omega)
      have hlen1 : (memcpy data (r * L) ((pkt.drop buf).take n)).length = data.length :=
        memcpy_length _ _ _ (by rw [hrow]; omega)
      obtain ⟨k, hk, hwr, hub⟩ := ih (buf + n)
        (memcpy data (r * L) ((pkt.drop buf).take n)) (by rw [hlen1]; omega)
      refine ⟨k + 1, by omega, ?_, ?_⟩
      · simp only [row_loop, hr, hw, if_false, Int.toNat_ofNat, hnext]
        rw [hwr, List.range_succ_eq_map, List.map_cons, List.map_map]
        have a0 : r + 1 - 1 - 0 = r := by omega
        simp only [a0, List.cons.injEq, true_and]
        apply List.map_congr_left
        intro i _
        have a1 : r + 1 - 1 - (i + 1) = r - 1 - i := by omega
        simp only [Function.comp, Nat.succ_eq_add_one, a1]
      · simp only [row_loop, hr, hw, if_false, Int.toNat_ofNat, hnext]
        rcases hub with ⟨h1, h2⟩ | ⟨off, h1, h2⟩
        · exact Or.inl ⟨h1, by omega⟩
        · exact Or.inr ⟨off, h1, by omega⟩

/-- The whole decode when the checks pass, the geometry lies in the input and
the host grants a frame of line size `L >= 0` whose `H` lines (`H` the height
stored in the context) are addressable with `int` offsets: the row loop runs
backward from line `H - 1` for a positive raw height and forward from line 0
otherwise; the writes of the run are those of the loop, and the run returns the
input length when the loop stays defined and stops where the loop stops
otherwise. -/
theorem granted_rows (host : Host) (env : Env) (pkt : List Nat) (s : Sizes)
    (hs : header_checks env pkt = Except.ok s) (h26 : 26 ≤ pkt.length)
    (H L n : Nat) (ret : Int) (fr : AVFrame)
    (hH : H = (if toInt32 (bytestream_get_le32 pkt 20) > 0
        then toInt32 (bytestream_get_le32 pkt 20)
        else wrap32 (-toInt32 (bytestream_get_le32 pkt 20))).toNat)
    (hn : n = row_stride (toInt32 (bytestream_get_le32 pkt 16)) (bytestream_get_le16 pkt 24))
    (hgrant : host
      { width := toInt32 (bytestream_get_le32 pkt 16),
        height := if toInt32 (bytestream_get_le32 pkt 20) > 0
          then toInt32 (bytestream_get_le32 pkt 20)
          else wrap32 (-toInt32 (bytestream_get_le32 pkt 20)),
        pix_fmt := AVPixelFormat.AV_PIX_FMT_BGR24 } env.p = (ret, fr))
    (hret : 0 ≤ ret) (hL : fr.linesize = (L : Int)) (hint : H * L < 2147483648)
    (r : RowLoop)
    (hr : r = if toInt32 (bytestream_get_le32 pkt 20) > 0
      then row_loop pkt n (-(L : Int)) H (bytestream_get_le32 pkt 8) ((H : Int) * L - L) fr.data
      else row_loop pkt n (L : Int) H (bytestream_get_le32 pkt 8) ((0 : Nat) : Int) fr.data) :
    (mpff_decode_frame host env pkt).writes = r.writes ∧
    (mpff_decode_frame host env pkt).env.avctx.height
      = (if toInt32 (bytestream_get_le32 pkt 20) > 0
        then toInt32 (bytestream_get_le32 pkt 20)
        else wrap32 (-toInt32 (bytestream_get_le32 pkt 20))) ∧
    (r.ub = none →
      (mpff_decode_frame host env pkt).out = Outcome.returned (pkt.length : Int) ∧
      (mpff_decode_frame host env pkt).env.p.data = r.data ∧
      (mpff_decode_frame host env pkt).env.p.linesize = (L : Int)) ∧
    (∀ u, r.ub = some u → (mpff_decode_frame host env pkt).out = Outcome.undefined u) := by
  obtain ⟨-, hhs, -, -, -, -⟩ := header_checks_ok env pkt s hs
  have hloop : row_loop pkt
      (row_stride (toInt32 (bytestream_get_le32 pkt 16)) (bytestream_get_le16 pkt 24))
      (if toInt32 (bytestream_get_le32 pkt 20) > 0 then wrap32 (-fr.linesize)
        else fr.linesize)
      (if toInt32 (bytestream_get_le32 pkt 20) > 0
          then toInt32 (bytestream_get_le32 pkt 20)
          else wrap32 (-toInt32 (bytestream_get_le32 pkt 20))).toNat
      (bytestream_get_le32 pkt 8)
      (if toInt32 (bytestream_get_le32 pkt 20) > 0 then
        wrap32 (((if toInt32 (bytestream_get_le32 pkt 20) > 0
          then toInt32 (bytestream_get_le32 pkt 20)
          else wrap32 (-toInt32 (bytestream_get_le32 pkt 20))) - 1) * fr.linesize)
        else 0)
      fr.data = r := by
    rw [hr]
    by_cases hpos : toInt32 (bytestream_get_le32 pkt 20) > 0
    · simp only [hpos, if_true] at hH ⊢
      have hHi : toInt32 (bytestream_get_le32 pkt 20) = (H : Int) := by omega
      have hHpos : 0 < H := by omega
      have hle : L ≤ H * L := Nat.le_mul_of_pos_left L hHpos
      have hptr : wrap32 (((H : Int) - 1) * (L : Int)) = (H : Int) * L - L := by
        have e : ((H : Int) - 1) * (L : Int) = (H : Int) * L - L := by ring
        have hc : ((H * L : Nat) : Int) = (H : Int) * L := by push_cast; rfl
        rw [e]
        exact wrap32_of_range _ (by omega) (by omega)
      have hls : wrap32 (-(L : Int)) = -(L : Int) :=
        wrap32_of_range _ (by omega) (by omega)
      simp only [hHi, hL, hptr, hls, Int.toNat_ofNat, ← hn]
    · simp only [hpos, if_false] at hH ⊢
      simp only [hL, ← hH, ← hn, Nat.cast_zero]
  have hwr : (mpff_decode_frame host env pkt).writes
      = (decode_picture host env pkt (bytestream_get_le32 pkt 8)).writes := by
    simp only [mpff_decode_frame, hs, hhs]
  have hout : (mpff_decode_frame host env pkt).out
      = (decode_picture host env pkt (bytestream_get_le32 pkt 8)).out := by
    simp only [mpff_decode_frame, hs, hhs]
  have henv : (mpff_decode_frame host env pkt).env
      = (decode_picture host env pkt (bytestream_get_le32 pkt 8)).env := by
    simp only [mpff_decode_frame, hs, hhs]
  cases hub : r.ub with
  | none =>
    have hgr := decode_picture_granted host env pkt (bytestream_get_le32 pkt 8) h26 ret fr
      hret hgrant r hloop hub
    rw [hwr, hout, henv, hgr]
    refine ⟨rfl, rfl, fun _ => ⟨rfl, rfl, hL⟩, fun u hu => absurd hu (by simp)⟩
  | some u =>
    have hst := decode_picture_stopped host env pkt (bytestream_get_le32 pkt 8) h26 ret fr
      hret hgrant r hloop u hub
    have c1 : ¬ (pkt.length < 20) := by omega
    have c2 : ¬ (pkt.length < 24) := by omega
    have c3 : ¬ (pkt.length < 26) := by omega
    have c4 : ¬ (ret < 0) := by omega
    have hh : (decode_picture host env pkt (bytestream_get_le32 pkt 8)).env.avctx.height
        = (if toInt32 (bytestream_get_le32 pkt 20) > 0
          then toInt32 (bytestream_get_le32 pkt 20)
          else wrap32 (-toInt32 (bytestream_get_le32 pkt 20))) := by
      unfold decode_picture
      simp only [c1, c2, c3, if_false, hgrant, c4, reduceCtorEq, hloop, hub]
    rw [hwr, hout, henv, hst.1, hst.2.2.2, hh]
    refine ⟨rfl, rfl, fun h => absurd h (by simp), fun u2 hu => ?_⟩
    injection hu with hu
    rw [hu]

/-- C12: on every successful decode (the call returns a non-negative value),
with `H` the height stored in the context, row stride `n` and a granted plane
of `H` lines of `L >= n` bytes addressable with `int` offsets, the writes of
`mpff_decode_frame` are exactly `n` bytes at the start of each of the `H` lines
(line `H - 1 - i` for copy `i` of a positive raw height, line `i` otherwise);
every byte of a line at a column in `[n, L)`, and every byte after the `H`
lines, has the value it had when the host granted the plane, and the plane
keeps its size and line size. -/
theorem host_padding_untouched (host : Host) (env : Env) (pkt : List Nat) (v : Int)
    (H L n : Nat) (ret : Int) (fr : AVFrame)
    (hout : (mpff_decode_frame host env pkt).out = Outcome.returned v) (hv : 0 ≤ v)
    (h31 : pkt.length < 2147483648)
    (hH : H = (if toInt32 (bytestream_get_le32 pkt 20) > 0
        then toInt32 (bytestream_get_le32 pkt 20)
        else wrap32 (-toInt32 (bytestream_get_le32 pkt 20))).toNat)
    (hn : n = row_stride (toInt32 (bytestream_get_le32 pkt 16)) (bytestream_get_le16 pkt 24))
    (hgrant : host
      { width := toInt32 (bytestream_get_le32 pkt 16),
        height := if toInt32 (bytestream_get_le32 pkt 20) > 0
          then toInt32 (bytestream_get_le32 pkt 20)
          else wrap32 (-toInt32 (bytestream_get_le32 pkt 20)),
        pix_fmt := AVPixelFormat.AV_PIX_FMT_BGR24 } env.p = (ret, fr))
    (hL : fr.linesize = (L : Int)) (hnL : n ≤ L)
    (hplane : H * L ≤ fr.data.length) (hint : H * L < 2147483648) :
    (mpff_decode_frame host env pkt).writes
      = (List.range H).map (fun i =>
          ((((if toInt32 (bytestream_get_le32 pkt 20) > 0 then H - 1 - i else i) * L
            : Nat) : Int), n)) ∧
    (mpff_decode_frame host env pkt).env.p.data.length = fr.data.length ∧
    (∀ r c, r < H → n ≤ c → c < L →
      (mpff_decode_frame host env pkt).env.p.data[r * L + c]? = fr.data[r * L + c]?) ∧
    (∀ j, H * L ≤ j →
      (mpff_decode_frame host env pkt).env.p.data[j]? = fr.data[j]?) ∧
    (mpff_decode_frame host env pkt).env.p.linesize = (L : Int) := by
  obtain ⟨⟨s, hs⟩, h26, hret0, -⟩ := success_run host env pkt v hout hv
  rw [hgrant] at hret0
  have hret : 0 ≤ ret := hret0
  obtain ⟨-, hhs, -, -, -, -⟩ := header_checks_ok env pkt s hs
  obtain ⟨-, hlt⟩ := header_checks_hsize_lt env pkt s hs h31
  rw [hhs] at hlt
  obtain ⟨g1, -, g3, g4⟩ := granted_rows host env pkt s hs h26 H L n ret fr hH hn hgrant hret
    hL hint _ rfl
  have hpad : ∀ (data : List Nat),
      (∀ j, (∀ i, i < H → j < i * L ∨ i * L + n ≤ j) → data[j]? = fr.data[j]?) →
      (∀ r c, r < H → n ≤ c → c < L → data[r * L + c]? = fr.data[r * L + c]?) ∧
      (∀ j, H * L ≤ j → data[j]? = fr.data[j]?) := by
    intro data hun
    constructor
    · intro r c hr hc1 hc2
      apply hun
      intro i hi
      rcases Nat.lt_trichotomy i r with h1 | h1 | h1
      · have := mul_add_le_of_lt i r L h1
        omega
      · subst h1
        omega
      · have := mul_add_le_of_lt r i L h1
        omega
    · intro j hj
      apply hun
      intro i hi
      have := mul_add_le_of_lt i H L hi
      omega
  by_cases hpos : toInt32 (bytestream_get_le32 pkt 20) > 0
  · simp only [hpos, if_true] at g1 g3 g4 ⊢
    have hub : (row_loop pkt n (-(L : Int)) H (bytestream_get_le32 pkt 8)
        ((H : Int) * L - L) fr.data).ub = none := by
      by_contra hne
      obtain ⟨u, hu⟩ := Option.ne_none_iff_exists'.mp hne
      rw [g4 u hu] at hout
      exact absurd hout (by simp)
    have hsrc : bytestream_get_le32 pkt 8 + H * n ≤ pkt.length := by
      rcases row_loop_defined pkt n _ H _ _ _ hub with h0 | h1
      · subst h0
        omega
      · exact h1
    obtain ⟨-, l2, -, l4, -, l6⟩ := row_loop_backward pkt n L hnL H
      (bytestream_get_le32 pkt 8) fr.data hsrc hplane
    obtain ⟨-, e2, e3⟩ := g3 hub
    rw [g1, e2, e3]
    exact ⟨l6, l2, (hpad _ l4).1, (hpad _ l4).2, rfl⟩
  · simp only [hpos, if_false] at g1 g3 g4 ⊢
    have hub : (row_loop pkt n (L : Int) H (bytestream_get_le32 pkt 8)
        ((0 : Nat) : Int) fr.data).ub = none := by
      by_contra hne
      obtain ⟨u, hu⟩ := Option.ne_none_iff_exists'.mp hne
      rw [g4 u hu] at hout
      exact absurd hout (by simp)
    have hsrc : bytestream_get_le32 pkt 8 + H * n ≤ pkt.length := by
      rcases row_loop_defined pkt n _ H _ _ _ hub with h0 | h1
      · subst h0
        omega
      · exact h1
    obtain ⟨-, l2, -, l4, -, l6⟩ := row_loop_forward pkt n L hnL H
      (bytestream_get_le32 pkt 8) 0 fr.data hsrc (by omega)
    obtain ⟨-, e2, e3⟩ := g3 hub
    rw [g1, e2, e3]
    refine ⟨by rw [l6]; simp, l2, (hpad _ ?_).1, (hpad _ ?_).2, rfl⟩
    · intro j hj
      exact l4 j (fun i hi => by have := hj i hi; omega)
    · intro j hj
      exact l4 j (fun i hi => by have := hj i hi; omega)

/-- Witness of C12: `sample_bottom_up` decoded into a plane of two 8-byte lines
filled with `255` leaves the four trailing bytes of each line at `255`. -/
theorem host_padding_untouched_witness :
    (mpff_decode_frame (grant_filled 8 255) env0 sample_bottom_up).env.p.data
      = [5, 6, 7, 8, 255, 255, 255, 255, 1, 2, 3, 4, 255, 255, 255, 255] ∧
    (mpff_decode_frame (grant_filled 8 255) env0 sample_bottom_up).writes
      = (List.range 2).map (fun i =>
          ((((if toInt32 (bytestream_get_le32 sample_bottom_up 20) > 0 then 2 - 1 - i else i)
            * 8 : Nat) : Int), 4)) :=
  have h := host_padding_untouched (grant_filled 8 255) env0 sample_bottom_up 34 2 8 4 0
    { data := List.replicate 16 255, linesize := 8,
      pict_type := AVPictureType.AV_PICTURE_TYPE_NONE, key_frame := 0 }
    (by decide) (by decide) (by decide) (by decide) (by decide) (by rfl) (by rfl)
    (by decide) (by decide) (by decide)
  ⟨by decide, h.1⟩

/-- The destination side of the row loop.  Let an input pass the checks and
hold its geometry, and let the host grant a plane that holds the `H` lines of
`L` bytes (`H` the height stored in the context), addressable with `int`
offsets, the row stride being `n <= L`.  Copy `i` of the row loop goes to line
`H - 1 - i` for a positive raw height and to line `i` otherwise: the writes of
the run are the ranges `[r * L, r * L + n)` of the lines of its first `k <= H`
copies, all `H` of them when the input holds the `H` source rows; every range
lies inside `[0, H * L)`, and the run never stops at a write outside the
plane. -/
theorem destination_writes_inside (host : Host) (env : Env) (pkt : List Nat)
    (H L n : Nat) (ret : Int) (fr : AVFrame)
    (hpass : ∃ s, header_checks env pkt = Except.ok s) (h26 : 26 ≤ pkt.length)
    (hH : H = (if toInt32 (bytestream_get_le32 pkt 20) > 0
        then toInt32 (bytestream_get_le32 pkt 20)
        else wrap32 (-toInt32 (bytestream_get_le32 pkt 20))).toNat)
    (hn : n = row_stride (toInt32 (bytestream_get_le32 pkt 16)) (bytestream_get_le16 pkt 24))
    (hgrant : host
      { width := toInt32 (bytestream_get_le32 pkt 16),
        height := if toInt32 (bytestream_get_le32 pkt 20) > 0
          then toInt32 (bytestream_get_le32 pkt 20)
          else wrap32 (-toInt32 (bytestream_get_le32 pkt 20)),
        pix_fmt := AVPixelFormat.AV_PIX_FMT_BGR24 } env.p = (ret, fr))
    (hret : 0 ≤ ret) (hL : fr.linesize = (L : Int)) (hnL : n ≤ L)
    (hplane : H * L ≤ fr.data.length) (hint : H * L < 2147483648) :
    (∃ k, k ≤ H ∧
      (mpff_decode_frame host env pkt).writes
        = (List.range k).map (fun i =>
            ((((if toInt32 (bytestream_get_le32 pkt 20) > 0 then H - 1 - i else i) * L
              : Nat) : Int), n)) ∧
      (bytestream_get_le32 pkt 8 + H * n ≤ pkt.length → k = H)) ∧
    (∀ i, i < H →
      (if toInt32 (bytestream_get_le32 pkt 20) > 0 then H - 1 - i else i) < H ∧
      (if toInt32 (bytestream_get_le32 pkt 20) > 0 then H - 1 - i else i) * L + n ≤ H * L) ∧
    (∀ r, r < H → ∃ i, i < H ∧
      (if toInt32 (bytestream_get_le32 pkt 20) > 0 then H - 1 - i else i) = r ∧
      ∀ j, j < H →
        (if toInt32 (bytestream_get_le32 pkt 20) > 0 then H - 1 - j else j) = r → j = i) ∧
    (∀ off cnt, (mpff_decode_frame host env pkt).out
      ≠ Outcome.undefined (Undefined.write_outside_frame off cnt)) := by
  obtain ⟨s, hs⟩ := hpass
  obtain ⟨g1, -, g3, g4⟩ := granted_rows host env pkt s hs h26 H L n ret fr hH hn hgrant hret
    hL hint _ rfl
  have hsafe : ∃ k, k ≤ H ∧
      (mpff_decode_frame host env pkt).writes
        = (List.range k).map (fun i =>
            ((((if toInt32 (bytestream_get_le32 pkt 20) > 0 then H - 1 - i else i) * L
              : Nat) : Int), n)) ∧
      (bytestream_get_le32 pkt 8 + H * n ≤ pkt.length → k = H) ∧
      (∀ off cnt, (mpff_decode_frame host env pkt).out
        ≠ Outcome.undefined (Undefined.write_outside_frame off cnt)) := by
    by_cases hpos : toInt32 (bytestream_get_le32 pkt 20) > 0
    · simp only [hpos, if_true] at g1 g3 g4 ⊢
      obtain ⟨k, hk, hwr, hub⟩ := row_loop_backward_safe pkt n L hnL H
        (bytestream_get_le32 pkt 8) fr.data hplane
      refine ⟨k, hk, by rw [g1, hwr], ?_, ?_⟩
      · intro hsrc
        obtain ⟨l1, -⟩ := row_loop_backward pkt n L hnL H (bytestream_get_le32 pkt 8)
          fr.data hsrc hplane
        rcases hub with ⟨-, h2⟩ | ⟨off, h1, -⟩
        · exact h2
        · rw [l1] at h1
          exact absurd h1 (by simp)
      · intro off cnt
        rcases hub with ⟨h1, -⟩ | ⟨o, h1, -⟩
        · rw [(g3 h1).1]
          simp
        · rw [g4 _ h1]
          simp
    · simp only [hpos, if_false] at g1 g3 g4 ⊢
      obtain ⟨k, hk, hwr, hub⟩ := row_loop_forward_safe pkt n L hnL H
        (bytestream_get_le32 pkt 8) 0 fr.data (by omega)
      refine ⟨k, hk, by rw [g1, hwr]; simp, ?_, ?_⟩
      · intro hsrc
        obtain ⟨l1, -⟩ := row_loop_forward pkt n L hnL H (bytestream_get_le32 pkt 8) 0
          fr.data hsrc (by omega)
        rcases hub with ⟨-, h2⟩ | ⟨off, h1, -⟩
        · exact h2
        · rw [l1] at h1
          exact absurd h1 (by simp)
      · intro off cnt
        rcases hub with ⟨h1, -⟩ | ⟨o, h1, -⟩
        · rw [(g3 h1).1]
          simp
        · rw [g4 _ h1]
          simp
  obtain ⟨k, hk, hwr, hfull, hnever⟩ := hsafe
  refine ⟨⟨k, hk, hwr, hfull⟩, ?_, ?_, hnever⟩
  · intro i hi
    have hrow : (if toInt32 (bytestream_get_le32 pkt 20) > 0 then H - 1 - i else i) < H := by
      split_ifs <;> omega
    have hm := mul_add_le_of_lt _ H L hrow
    exact ⟨hrow, by omega⟩
  · intro r hr
    by_cases hpos : toInt32 (bytestream_get_le32 pkt 20) > 0
    · simp only [hpos, if_true]
      exact ⟨H - 1 - r, by omega, by omega, fun j hj hjr => by omega⟩
    · simp only [hpos, if_false]
      exact ⟨r, hr, rfl, fun j _ hjr => hjr⟩

/-- An instance at `sample_bottom_up`: its two copies into a plane of two
8-byte lines write `[8, 12)` and then `[0, 4)`. -/
theorem destination_writes_inside_witness :
    (mpff_decode_frame (grant 8) env0 sample_bottom_up).writes = [(8, 4), (0, 4)] ∧
    (∀ off cnt, (mpff_decode_frame (grant 8) env0 sample_bottom_up).out
      ≠ Outcome.undefined (Undefined.write_outside_frame off cnt)) :=
  have h := destination_writes_inside (grant 8) env0 sample_bottom_up 2 8 4 0
    { data := List.replicate 16 0, linesize := 8,
      pict_type := AVPictureType.AV_PICTURE_TYPE_NONE, key_frame := 0 }
    ⟨{ fsize := 34, hsize := 26, ihsize := 14, log := [] }, by rfl⟩
    (by decide) (by decide) (by decide) (by rfl) (by decide) (by rfl) (by decide)
    (by decide) (by decide)
  ⟨by decide, h.2.2.2⟩

end Mpff
